import Mathlib

/-!
Verification development for the KM-Project balance-ledger subsystem.

The definitions below are a shallow embedding of the two ingestion
pipelines and the transfer protocol of the repository:

* `src/import_mouvements.py` — the standalone import script
  (`parse_amount`, `parse_debitcredit`, `parse_date_any`, `norm_text`,
  `create_member_minimal`, `payment_exists`, `insert_mouvement`,
  `apply_balance`, `process_file`);
* `src/app_flask_postgres.py` — the Flask application
  (`parse_date_fr`, the `/import-mouvements` route, the `/transfer`
  route, `update_mouvement`, and the `mouvements` schema with its
  UNIQUE `reference` column).

Monetary values are embedded as `Rat` (the source uses Python
`Decimal`/`float`; all claims are about exact comparisons and sums of
small decimal values, where the two coincide).  Database tables become
a record `LedgerState`: `membres` is a map from phone to the member
row, `mouvements` is the ordered list of inserted rows.  `CURRENT_DATE`
/ `datetime.utcnow().date()` is passed in as an explicit `today`
argument, and Flask's `session["user"]` as an explicit `user` argument.
-/

namespace KM

/-- Calendar date, mirroring Python `datetime.date` values. -/
structure MyDate where
  year : Nat
  month : Nat
  day : Nat
deriving DecidableEq, Repr

/-- Days in a month, with Gregorian leap years, mirroring the validation
Python's `datetime.date(y, m, d)` constructor performs. -/
def daysInMonth (y m : Nat) : Nat :=
  if m = 2 then
    (if y % 4 = 0 ∧ (y % 100 ≠ 0 ∨ y % 400 = 0) then 29 else 28)
  else if m = 4 ∨ m = 6 ∨ m = 9 ∨ m = 11 then 30
  else 31

/-- Build a `MyDate`, failing exactly when Python's `date(y, m, d)`
would raise `ValueError` (year ≥ 1, month in 1..12, day in range). -/
def mkDate (y m d : Nat) : Option MyDate :=
  if 1 ≤ y ∧ 1 ≤ m ∧ m ≤ 12 ∧ 1 ≤ d ∧ d ≤ daysInMonth y m then
    some ⟨y, m, d⟩
  else none

/-! ## String helpers mirroring the Python string methods used -/

/-- Python `str.strip()` on a character list. -/
def stripChars (cs : List Char) : List Char :=
  ((cs.dropWhile Char.isWhitespace).reverse.dropWhile Char.isWhitespace).reverse

/-- Python `str.strip()`. -/
def pyStrip (s : String) : String :=
  String.mk (stripChars s.data)

/-- Python `str.upper()` restricted to ASCII letters, which is all the
source compares after upper-casing (`"C"`, `"CREDIT"`, `"D"`, ...). -/
def pyUpper (s : String) : String :=
  String.mk (s.data.map Char.toUpper)

/-- Python `str.lower()` on the characters `parse_date_fr` can meet:
ASCII letters plus the upper-case forms of the accented letters
appearing in `FR_MONTHS` (`é û ô î à ç`). -/
def pyLowerChar (c : Char) : Char :=
  if 'A' ≤ c ∧ c ≤ 'Z' then Char.ofNat (c.toNat + 32)
  else if c = 'É' then 'é'
  else if c = 'Û' then 'û'
  else if c = 'Ô' then 'ô'
  else if c = 'Î' then 'î'
  else if c = 'À' then 'à'
  else if c = 'Ç' then 'ç'
  else c

/-- Python `str.lower()` as used by `parse_date_fr`. -/
def pyLower (s : String) : String :=
  String.mk (s.data.map pyLowerChar)

/-- Python `str.replace(",", ".")`. -/
def replaceCommaDot (s : String) : String :=
  String.mk (s.data.map (fun c => if c = ',' then '.' else c))

/-- Python `x or default` on an optional string: `None` and the empty
string are falsy and give the default. -/
def pyOr (o : Option String) (d : String) : String :=
  match o with
  | none => d
  | some s => if s = "" then d else s

/-! ## Numeric literal parsing

`parse_amount` (script) feeds the comma-normalised string to
`Decimal(...)`; the Flask import and transfer routes feed form/CSV
strings to `float(...)`.  Both accept an optional sign, a decimal
mantissa and an optional exponent; `parseDecimal` embeds that common
grammar exactly (special values such as `NaN`/`Infinity` and digit
group underscores are outside the model; no claim depends on them). -/

/-- Split the longest leading run of decimal digits off a character
list, returning their values most-significant first. -/
def readDigits : List Char → (List Nat × List Char)
  | [] => ([], [])
  | c :: cs =>
    if c.isDigit then
      let p := readDigits cs
      ((c.toNat - 48) :: p.1, p.2)
    else ([], c :: cs)

/-- Value of a digit list, most-significant first. -/
def natOfDigits (ds : List Nat) : Nat :=
  ds.foldl (fun acc d => 10 * acc + d) 0

/-- Optional leading sign. -/
def readSign : List Char → (Int × List Char)
  | '+' :: cs => (1, cs)
  | '-' :: cs => (-1, cs)
  | cs => (1, cs)

/-- Parse a decimal literal (`"50"`, `"50.25"`, `"-3."`, `".5"`,
`"2e3"`, ...) to its exact rational value; `none` exactly when
`Decimal(...)` / `float(...)` would raise on such a literal. -/
def parseDecimalChars (cs0 : List Char) : Option Rat :=
  let sp := readSign cs0
  let ip := readDigits sp.2
  let fpRest : List Nat × List Char :=
    match ip.2 with
    | '.' :: r => readDigits r
    | r => ([], r)
  if ip.1.isEmpty ∧ fpRest.1.isEmpty then none
  else
    let mant : Rat :=
      (sp.1 * Int.ofNat (natOfDigits (ip.1 ++ fpRest.1)) : Int) /
        ((10 : Rat) ^ fpRest.1.length)
    match fpRest.2 with
    | [] => some mant
    | e :: r =>
      if e = 'e' ∨ e = 'E' then
        let es := readSign r
        let ed := readDigits es.2
        if ed.1.isEmpty ∨ ¬ ed.2.isEmpty then none
        else if es.1 = 1 then some (mant * (10 : Rat) ^ natOfDigits ed.1)
        else some (mant / (10 : Rat) ^ natOfDigits ed.1)
      else none

/-- Parse a decimal literal string. -/
def parseDecimal (s : String) : Option Rat :=
  parseDecimalChars s.data

/-! ## Date parsing -/

/-- The `FR_MONTHS` table of `src/app_flask_postgres.py`. -/
def frMonth : String → Option Nat
  | "janv" => some 1
  | "jan" => some 1
  | "fevr" => some 2
  | "févr" => some 2
  | "fev" => some 2
  | "fév" => some 2
  | "mars" => some 3
  | "avr" => some 4
  | "avril" => some 4
  | "mai" => some 5
  | "juin" => some 6
  | "juil" => some 7
  | "juillet" => some 7
  | "aout" => some 8
  | "août" => some 8
  | "sept" => some 9
  | "oct" => some 10
  | "nov" => some 11
  | "dec" => some 12
  | "déc" => some 12
  | _ => none

/-- Character class `[a-zéûôîàç]` of the `parse_date_fr` regex. -/
def isFrMonthChar (c : Char) : Bool :=
  ('a' ≤ c ∧ c ≤ 'z') ∨ c = 'é' ∨ c = 'û' ∨ c = 'ô' ∨ c = 'î' ∨ c = 'à' ∨ c = 'ç'

/-- Numeric value of an all-digit character list. -/
def digitsVal (cs : List Char) : Nat :=
  natOfDigits (cs.map (fun c => c.toNat - 48))

/-- Split a character list on a separator character, with the
`str.split(sep)` semantics (`"a--b"` gives three groups, the middle
one empty; the empty input gives one empty group). -/
def splitOnChar (sep : Char) : List Char → List (List Char)
  | [] => [[]]
  | c :: rest =>
    let r := splitOnChar sep rest
    if c = sep then [] :: r
    else
      match r with
      | [] => [[c]]
      | g :: gs => (c :: g) :: gs

/-- The Flask app's `parse_date_fr` (`"2-oct.-25"` style): strip, lower,
drop all dots, then match `^(\d{1,2})-([a-zéûôîàç]+)-(\d{2,4})$`;
two-digit years get 2000 added; `date(y, m, d)` validation applies
(failures there are caught by the import loop, hence `none`). -/
def parse_date_fr (s : String) : Option MyDate :=
  let t := (pyLower (pyStrip s)).data.filter (fun c => c ≠ '.')
  match splitOnChar '-' t with
  | [dPart, monPart, yPart] =>
    if (1 ≤ dPart.length ∧ dPart.length ≤ 2 ∧ dPart.all Char.isDigit) ∧
       (1 ≤ monPart.length ∧ monPart.all isFrMonthChar) ∧
       (2 ≤ yPart.length ∧ yPart.length ≤ 4 ∧ yPart.all Char.isDigit) then
      match frMonth (String.mk monPart) with
      | none => none
      | some m =>
        let y0 := digitsVal yPart
        mkDate (if y0 < 100 then y0 + 2000 else y0) m (digitsVal dPart)
    else none
  | _ => none

/-- The script's `parse_date_any`.  The heavy lifting there is done by
the external `dateutil` parser (`dayfirst=True`); this embeds its
behaviour on the formats the script's docstring documents —
`"2026-01-15"` (ISO) and `"15/01/2026"` (day first) — and is `none`
elsewhere.  No claim depends on other date shapes. -/
def parse_date_any (o : Option String) : Option MyDate :=
  match o with
  | none => none
  | some x =>
    let s := (pyStrip x).data
    match splitOnChar '-' s with
    | [yP, mP, dP] =>
      if yP.length = 4 ∧ yP.all Char.isDigit ∧
         1 ≤ mP.length ∧ mP.length ≤ 2 ∧ mP.all Char.isDigit ∧
         1 ≤ dP.length ∧ dP.length ≤ 2 ∧ dP.all Char.isDigit then
        mkDate (digitsVal yP) (digitsVal mP) (digitsVal dP)
      else none
    | _ =>
      match splitOnChar '/' s with
      | [dP, mP, yP] =>
        if yP.length = 4 ∧ yP.all Char.isDigit ∧
           1 ≤ mP.length ∧ mP.length ≤ 2 ∧ mP.all Char.isDigit ∧
           1 ≤ dP.length ∧ dP.length ≤ 2 ∧ dP.all Char.isDigit then
          mkDate (digitsVal yP) (digitsVal mP) (digitsVal dP)
        else none
      | _ => none

/-! ## The script's field parsers (`src/import_mouvements.py`) -/

/-- The script's `norm_text`: `None`/NaN becomes `""`, else strip. -/
def norm_text (o : Option String) : String :=
  match o with
  | none => ""
  | some s => pyStrip s

/-- The script's `parse_amount`: missing value raises; otherwise strip,
replace `,` with `.` and feed to `Decimal` (here `parseDecimal`). -/
def parse_amount (o : Option String) : Option Rat :=
  match o with
  | none => none
  | some x => parseDecimal (replaceCommaDot (pyStrip x))

/-- The script's `parse_debitcredit`: normalise to `"C"` or `"D"`,
accepting the long forms; anything else raises (`none`). -/
def parse_debitcredit (o : Option String) : Option String :=
  match o with
  | none => none
  | some x =>
    let s := pyUpper (pyStrip x)
    if s = "C" ∨ s = "CREDIT" ∨ s = "CR" ∨ s = "+" then some ("C")
    else if s = "D" ∨ s = "DEBIT" ∨ s = "DR" ∨ s = "-" then some ("D")
    else none

/-! ## Data model -/

/-- Direction of an applied balance adjustment (glossary: Credit
increases the balance, Debit decreases it). -/
inductive DC where
  | D
  | C
deriving DecidableEq, Repr

/-- One *applied* movement: a balance adjustment that actually hit a
member row (`UPDATE membres SET balance = balance ± amount` with
rowcount 1).  The interpretations of the operations below emit these
as an audit trace; they are the "applied movements" of the spec's
balance invariant. -/
structure Applied where
  phone : String
  amount : Rat
  dc : DC
deriving DecidableEq, Repr

/-- Direction of a stored `debitcredit` value, as the Flask import
computes the delta: `-amount if debitcredit == "D" else amount`. -/
def dcOf (s : String) : DC :=
  if s = "D" then DC.D else DC.C

/-- A `membres` row.  Columns not read or written by any modelled
operation (`id`, `idpicture_url`, `membershipdate`) are omitted;
`birthdate` is kept as its text rendering because the transfer route
copies it into a TEXT column of `mouvements`. -/
structure Membre where
  phone : String
  membertype : String
  mentor : String
  lastname : String
  firstname : String
  birthdate : String
  idtype : String
  currentstatute : String
  balance : Rat
  updatedate : MyDate
  updateuser : String
  password_hash : String
deriving DecidableEq, Repr

/-- A `mouvements` row.  `payment_id` is the extra column of the
script's schema (`None` for rows inserted by the Flask app, whose
schema has no such column); `id`/`created_at` are omitted (never read
by the modelled operations — insertion order is the list order). -/
structure Mvt where
  payment_id : Option String
  phone : String
  firstname : String
  lastname : String
  mvt_date : MyDate
  amount : Rat
  debitcredit : String
  reference : String
  updatedate : MyDate
  libelle : Option String
  updated_by : Option String
deriving DecidableEq, Repr

/-- The persisted state: the `membres` table (keyed by its UNIQUE
`phone` column) and the `mouvements` table in insertion order. -/
structure LedgerState where
  membres : String → Option Membre
  mouvements : List Mvt

/-- Write/overwrite one member row. -/
def setMembre (s : LedgerState) (p : String) (m : Membre) : LedgerState :=
  { s with membres := fun q => if q = p then some m else s.membres q }

/-- Append one movement row. -/
def addMvt (s : LedgerState) (mv : Mvt) : LedgerState :=
  { s with mouvements := s.mouvements ++ [mv] }

/-- The UNIQUE constraint check on `mouvements.reference`
(`src/app_flask_postgres.py` line 146). -/
def refExists (s : LedgerState) (r : String) : Bool :=
  s.mouvements.any (fun mv => mv.reference = r)

/-- The script's `payment_exists` (`SELECT 1 FROM mouvements WHERE
payment_id = %s`). -/
def payment_exists (s : LedgerState) (pid : String) : Bool :=
  s.mouvements.any (fun mv => mv.payment_id = some pid)

/-- The script's `member_exists`. -/
def member_exists (s : LedgerState) (p : String) : Bool :=
  (s.membres p).isSome

/-- The member's stored balance, or 0 when the row is absent (the
fallback the transfer route uses: `me[10] if me else 0`). -/
def balOr0 (s : LedgerState) (p : String) : Rat :=
  match s.membres p with
  | some m => m.balance
  | none => 0

/-! ## Script import pipeline (`src/import_mouvements.py`, `process_file`) -/

/-- One raw row of the script's input DataFrame (all columns read with
`dtype=str`; `none` is a pandas NaN / missing value). -/
structure ScriptRow where
  payment_id : Option String
  phone : Option String
  firstname : Option String
  lastname : Option String
  date : Option String
  amount : Option String
  debitcredit : Option String
  reference : Option String
deriving DecidableEq, Repr

/-- A script row after the per-row validation of `process_file`
(lines 269–280): normalised identity fields all non-empty, and date,
amount and debit/credit parsed. -/
structure ParsedRow where
  payment_id : String
  phone : String
  firstname : String
  lastname : String
  mvt_date : MyDate
  amount : Rat
  dc : String
  reference : String
deriving DecidableEq, Repr

/-- Per-row validation of `process_file`: `none` means the row raised
and is counted in `failed_rows` (all of these checks are pure Python,
before any SQL statement of the row runs). -/
def scriptParseRow (r : ScriptRow) : Option ParsedRow :=
  if norm_text r.payment_id = "" ∨ norm_text r.phone = "" ∨
      norm_text r.firstname = "" ∨ norm_text r.lastname = "" ∨
      norm_text r.reference = "" then
    none
  else
    match parse_date_any r.date with
    | none => none
    | some d =>
      match parse_amount r.amount with
      | none => none
      | some a =>
        match parse_debitcredit r.debitcredit with
        | none => none
        | some dc =>
          some ⟨norm_text r.payment_id, norm_text r.phone, norm_text r.firstname,
                norm_text r.lastname, d, a, dc, norm_text r.reference⟩

/-- The script's `create_member_minimal` with its `ON CONFLICT (phone)
DO NOTHING` clause; defaults are the source's ENV fallbacks
(`membre` / `admin` / `actif` / birthdate 2000-01-01 / `N/A` /
`NO_LOGIN_CREATED`), balance 0. -/
def create_member_minimal (s : LedgerState) (phone firstname lastname : String)
    (today : MyDate) : LedgerState :=
  match s.membres phone with
  | some _ => s
  | none =>
    setMembre s phone
      { phone := phone
        membertype := "membre"
        mentor := "admin"
        lastname := lastname
        firstname := firstname
        birthdate := "2000-01-01"
        idtype := "N/A"
        currentstatute := "actif"
        balance := 0
        updatedate := today
        updateuser := "system_import"
        password_hash := "NO_LOGIN_CREATED" }

/-- The script's `apply_balance`: `C` adds, anything else subtracts
(`UPDATE membres SET balance = balance ± %s WHERE phone = %s`; a
missing member row means rowcount 0 and no change). -/
def apply_balance (s : LedgerState) (phone : String) (amount : Rat) (dc : String) :
    LedgerState :=
  match s.membres phone with
  | none => s
  | some m =>
    setMembre s phone
      { m with balance := if dc = "C" then m.balance + amount else m.balance - amount }

/-- The movement row the script's `insert_mouvement` writes. -/
def scriptMvtOf (p : ParsedRow) (today : MyDate) : Mvt :=
  { payment_id := some p.payment_id
    phone := p.phone
    firstname := p.firstname
    lastname := p.lastname
    mvt_date := p.mvt_date
    amount := p.amount
    debitcredit := p.dc
    reference := p.reference
    updatedate := today
    libelle := none
    updated_by := none }

/-- Statistics increments of one script batch (the counters of the
script's `ImportStats`, minus `total_rows` which is fixed up front). -/
structure SDelta where
  inserted_mouvements : Nat
  skipped_duplicates : Nat
  created_members : Nat
  updated_balances : Nat
  failed_rows : Nat
deriving DecidableEq, Repr

def sdZero : SDelta := ⟨0, 0, 0, 0, 0⟩

def sdAdd (a b : SDelta) : SDelta :=
  ⟨a.inserted_mouvements + b.inserted_mouvements,
   a.skipped_duplicates + b.skipped_duplicates,
   a.created_members + b.created_members,
   a.updated_balances + b.updated_balances,
   a.failed_rows + b.failed_rows⟩

/-- Delta of a failed row. -/
def sdFailed : SDelta := ⟨0, 0, 0, 0, 1⟩

/-- Delta of a duplicate row. -/
def sdDup : SDelta := ⟨0, 1, 0, 0, 0⟩

/-- Delta of an inserted row (`inserted_mouvements`, `updated_balances`
always bump together in the source; `created_members` when the member
was auto-created). -/
def sdIns (created : Bool) : SDelta :=
  ⟨1, 0, if created then 1 else 0, 1, 0⟩

/-- Steps 2–4 of a validated, non-duplicate script row: create the
member if absent, insert the movement, apply the balance. -/
def scriptRowEffect (s : LedgerState) (p : ParsedRow) (today : MyDate) :
    LedgerState × SDelta × List Applied :=
  let s1 :=
    if member_exists s p.phone then s
    else create_member_minimal s p.phone p.firstname p.lastname today
  let s2 := addMvt s1 (scriptMvtOf p today)
  let s3 := apply_balance s2 p.phone p.amount p.dc
  (s3, sdIns (! member_exists s p.phone),
   [⟨p.phone, p.amount, if p.dc = "C" then DC.C else DC.D⟩])

/-- The row loop of the script's `process_file`: per-row exceptions are
caught (`failed_rows`), duplicates skip via `payment_exists`, valid new
rows run `scriptRowEffect`; the batch always finishes. -/
def scriptAux (today : MyDate) : List ScriptRow → LedgerState →
    LedgerState × SDelta × List Applied
  | [], s => (s, sdZero, [])
  | r :: rs, s =>
    match scriptParseRow r with
    | none =>
      let rest := scriptAux today rs s
      (rest.1, sdAdd sdFailed rest.2.1, rest.2.2)
    | some p =>
      if payment_exists s p.payment_id then
        let rest := scriptAux today rs s
        (rest.1, sdAdd sdDup rest.2.1, rest.2.2)
      else
        let step := scriptRowEffect s p today
        let rest := scriptAux today rs step.1
        (rest.1, sdAdd step.2.1 rest.2.1, step.2.2 ++ rest.2.2)

/-- The script's aggregate statistics record. -/
structure ImportStats where
  total_rows : Nat
  inserted_mouvements : Nat
  skipped_duplicates : Nat
  created_members : Nat
  updated_balances : Nat
  failed_rows : Nat
deriving DecidableEq, Repr

/-- The script's `process_file` on an already-read, column-validated
file: one global transaction that always commits at the end (no SQL
statement of the loop can fail: duplicates are pre-checked and the
member insert is `ON CONFLICT DO NOTHING`). -/
def process_file (rows : List ScriptRow) (s : LedgerState) (today : MyDate) :
    LedgerState × ImportStats × List Applied :=
  let r := scriptAux today rows s
  (r.1,
   ⟨rows.length, r.2.1.inserted_mouvements, r.2.1.skipped_duplicates,
    r.2.1.created_members, r.2.1.updated_balances, r.2.1.failed_rows⟩,
   r.2.2)

/-! ## Flask import route (`/import-mouvements`, `src/app_flask_postgres.py`) -/

/-- One row of the uploaded CSV as `csv.DictReader` yields it
(`none` = column absent from the file). -/
structure FlaskRow where
  phone : Option String
  firstname : Option String
  lastname : Option String
  date : Option String
  amount : Option String
  debitcredit : Option String
  reference : Option String
deriving DecidableEq, Repr

/-- The fields of a Flask CSV row after lines 1174–1196 of the route:
extraction with `or ""` defaults, `float` on the comma-normalised
amount (default `"0"`), `parse_date_fr` on the date, and the
`phone`/`debitcredit` check.  `none` covers both the row-level
exception path and the explicit `continue` — each adds 1 to `skipped`
before any SQL statement of the row is issued. -/
structure FlaskParsed where
  phone : String
  firstname : String
  lastname : String
  debitcredit : String
  reference : String
  amount : Rat
  mvt_date : MyDate
deriving DecidableEq, Repr

def flaskParse (r : FlaskRow) : Option FlaskParsed :=
  let phone := pyStrip (pyOr r.phone (""))
  let firstname := pyStrip (pyOr r.firstname (""))
  let lastname := pyStrip (pyOr r.lastname (""))
  let debitcredit := pyUpper (pyStrip (pyOr r.debitcredit ("")))
  let reference := pyStrip (pyOr r.reference (""))
  match parseDecimal (replaceCommaDot (pyStrip (pyOr r.amount ("0")))) with
  | none => none
  | some amount =>
    match parse_date_fr (pyOr r.date ("")) with
    | none => none
    | some d =>
      if phone = "" ∨ ¬ (debitcredit = "D" ∨ debitcredit = "C") then none
      else some ⟨phone, firstname, lastname, debitcredit, reference, amount, d⟩

/-- The movement row the route's INSERT writes (line 1202–1205):
`libelle` is a second copy of `reference`, `updated_by` is the literal
`"system"`. -/
def flaskMvtOf (p : FlaskParsed) (today : MyDate) : Mvt :=
  { payment_id := none
    phone := p.phone
    firstname := p.firstname
    lastname := p.lastname
    mvt_date := p.mvt_date
    amount := p.amount
    debitcredit := p.debitcredit
    reference := p.reference
    updatedate := today
    libelle := some p.reference
    updated_by := some ("system") }

/-- The balance update of the route and of the transfer route
(`UPDATE membres SET balance = balance + %s, updatedate = CURRENT_DATE,
updateuser = %s WHERE phone = %s`); the Bool is `cur.rowcount ≠ 0`. -/
def updateBalanceMeta (s : LedgerState) (p : String) (delta : Rat) (today : MyDate)
    (user : String) : LedgerState × Bool :=
  match s.membres p with
  | none => (s, false)
  | some m =>
    (setMembre s p { m with balance := m.balance + delta, updatedate := today,
                            updateuser := user }, true)

/-- Step 3 of the route (lines 1223–1229): set `currentstatute` to
`inactif` where `balance < 0 AND currentstatute = 'actif'`; the Bool is
`cur.rowcount ≠ 0` (feeds `flagged_inactif`). -/
def flaskStatusRule (s : LedgerState) (p : String) (user : String) (today : MyDate) :
    LedgerState × Bool :=
  match s.membres p with
  | none => (s, false)
  | some m =>
    if m.balance < 0 ∧ m.currentstatute = "actif" then
      (setMembre s p { m with currentstatute := "inactif", updatedate := today,
                              updateuser := user }, true)
    else (s, false)

/-- Statistics increments of the route's counters. -/
structure FDelta where
  inserted : Nat
  updated_balances : Nat
  flagged_inactif : Nat
  skipped : Nat
deriving DecidableEq, Repr

def fdZero : FDelta := ⟨0, 0, 0, 0⟩

def fdAdd (a b : FDelta) : FDelta :=
  ⟨a.inserted + b.inserted, a.updated_balances + b.updated_balances,
   a.flagged_inactif + b.flagged_inactif, a.skipped + b.skipped⟩

def fdSkip : FDelta := ⟨0, 0, 0, 1⟩

/-- Steps 1–3 of a validated Flask row whose INSERT succeeds: insert
the movement, add `delta = -amount if debitcredit == "D" else amount`
to the member's balance (if the member exists), then the status rule.
The `Applied` event is emitted exactly when the balance UPDATE hit a
row. -/
def flaskApplyRow (s : LedgerState) (p : FlaskParsed) (user : String) (today : MyDate) :
    LedgerState × FDelta × List Applied :=
  let s1 := addMvt s (flaskMvtOf p today)
  let delta := if p.debitcredit = "D" then -p.amount else p.amount
  let ub := updateBalanceMeta s1 p.phone delta today user
  let fr := flaskStatusRule ub.1 p.phone user today
  (fr.1,
   ⟨1, if ub.2 then 1 else 0, if fr.2 then 1 else 0, 0⟩,
   if ub.2 then [⟨p.phone, p.amount, dcOf p.debitcredit⟩] else [])

/-- The row loop of the route.  All rows share one PostgreSQL
transaction; the route has no duplicate pre-check, so a row whose
`reference` already exists makes its INSERT violate the UNIQUE
constraint.  That exception is caught by the per-row handler
(`skipped`), but PostgreSQL leaves the transaction in the aborted
state: every later SQL statement fails immediately (each such row is
likewise caught and counted in `skipped`; rows failing in pure Python
never reach SQL and behave as before).  The final Bool is the aborted
flag. -/
def flaskAux (user : String) (today : MyDate) : List FlaskRow → LedgerState → Bool →
    LedgerState × FDelta × List Applied × Bool
  | [], s, ab => (s, fdZero, [], ab)
  | r :: rs, s, ab =>
    if ab then
      let rest := flaskAux user today rs s true
      (rest.1, fdAdd fdSkip rest.2.1, rest.2.2.1, rest.2.2.2)
    else
      match flaskParse r with
      | none =>
        let rest := flaskAux user today rs s false
        (rest.1, fdAdd fdSkip rest.2.1, rest.2.2.1, rest.2.2.2)
      | some p =>
        if refExists s p.reference then
          let rest := flaskAux user today rs s true
          (rest.1, fdAdd fdSkip rest.2.1, rest.2.2.1, rest.2.2.2)
        else
          let step := flaskApplyRow s p user today
          let rest := flaskAux user today rs step.1 false
          (rest.1, fdAdd step.2.1 rest.2.1, step.2.2 ++ rest.2.2.1, rest.2.2.2)

/-- The POST handler of `/import-mouvements` on a decoded CSV: run the
row loop, then `conn.commit()`.  Committing an aborted transaction is a
rollback, so an aborted batch leaves the database exactly as it was
(while the Python counters, accumulated outside the database, are still
reported).  Returns (final state, counters, applied movements). -/
def import_mouvements (rows : List FlaskRow) (user : String) (today : MyDate)
    (s0 : LedgerState) : LedgerState × FDelta × List Applied :=
  let r := flaskAux user today rows s0 false
  if r.2.2.2 then (s0, r.2.1, []) else (r.1, r.2.1, r.2.2.1)

/-! ## Transfer route (`/transfer`, `src/app_flask_postgres.py`) -/

inductive TransferError where
  | invalidAmount
  | beneficiaryNotFound
  | insufficientFunds
  | transferFailed
deriving DecidableEq, Repr

/-- The debit-leg reference `ref_base + "-D"` with
`ref_base = f"TR-{session['user']}"` (source line 1688): it depends on
the sender's phone only, not on any per-transfer id. -/
def trRefD (from_phone : String) : String := ("TR-" ++ from_phone) ++ ("-D")

/-- The credit-leg reference `ref_base + "-C"`. -/
def trRefC (from_phone : String) : String := ("TR-" ++ from_phone) ++ ("-C")

/-- The debit movement the transfer inserts (step 1): names from
`me[5]`/`me[4]` (firstname/lastname). -/
def transferDebitMvt (from_phone : String) (me : Membre) (amount : Rat)
    (today : MyDate) : Mvt :=
  { payment_id := none, phone := from_phone, firstname := me.firstname
    lastname := me.lastname, mvt_date := today, amount := amount
    debitcredit := "D", reference := trRefD from_phone, updatedate := today
    libelle := none, updated_by := none }

/-- The credit movement the transfer inserts (step 2): `to_member[5]`
is the firstname but `to_member[6]` — copied into `lastname` — is the
beneficiary's *birthdate* (an index slip in the source, mirrored). -/
def transferCreditMvt (from_phone to_phone : String) (to_member : Membre) (amount : Rat)
    (today : MyDate) : Mvt :=
  { payment_id := none, phone := to_phone, firstname := to_member.firstname
    lastname := to_member.birthdate, mvt_date := today, amount := amount
    debitcredit := "C", reference := trRefC from_phone, updatedate := today
    libelle := none, updated_by := none }

/-- Step 3 of the transfer: both balance UPDATEs (the source passes
`from_phone` as `updateuser` for both legs). -/
def transferFinish (s2 : LedgerState) (from_phone to_phone : String) (amount : Rat)
    (today : MyDate) : LedgerState × Option TransferError × List Applied :=
  let ubF := updateBalanceMeta s2 from_phone (-amount) today from_phone
  let ubT := updateBalanceMeta ubF.1 to_phone amount today from_phone
  (ubT.1, none,
   (if ubF.2 then [⟨from_phone, amount, DC.D⟩] else []) ++
     (if ubT.2 then [⟨to_phone, amount, DC.C⟩] else []))

/-- The POST branch of the `/transfer` route.  `from_phone` is
`session["user"]`; `my_balance` is `me[10] if me else 0`
(here `balOr0`).  Checks in source order: `amount <= 0`, beneficiary
exists, `my_balance < amount` — each failing check renders an error
with no state change.  A UNIQUE violation on either INSERT raises, the
transaction rolls back, and the route reports an error with no state
change; otherwise both balance UPDATEs run in the same transaction. -/
def transferRun (s : LedgerState) (from_phone to_phone : String) (amount : Rat)
    (today : MyDate) : LedgerState × Option TransferError × List Applied :=
  if amount ≤ 0 then (s, some TransferError.invalidAmount, [])
  else
    match s.membres to_phone with
    | none => (s, some TransferError.beneficiaryNotFound, [])
    | some to_member =>
      if balOr0 s from_phone < amount then (s, some TransferError.insufficientFunds, [])
      else
        match s.membres from_phone with
        | none => (s, some TransferError.transferFailed, [])
        | some me =>
          if refExists s (trRefD from_phone) then (s, some TransferError.transferFailed, [])
          else
            if refExists (addMvt s (transferDebitMvt from_phone me amount today))
                (trRefC from_phone) then
              (s, some TransferError.transferFailed, [])
            else
              transferFinish
                (addMvt (addMvt s (transferDebitMvt from_phone me amount today))
                  (transferCreditMvt from_phone to_phone to_member amount today))
                from_phone to_phone amount today

/-! ## Admin movement edit (`update_mouvement`, `src/app_flask_postgres.py`) -/

/-- A bound SQL parameter value. -/
inductive SqlValue where
  | str (v : String)
  | num (v : Rat)
  | dat (v : MyDate)
deriving DecidableEq, Repr

inductive SqlError where
  | programmingError
deriving DecidableEq, Repr

/-- Placeholder count of the UPDATE text of `update_mouvement`
(`SET mvt_date, amount, debitcredit, reference, libelle, updated_by`
plus `WHERE id`): 7. -/
def update_mouvement_placeholder_count : Nat := 7

/-- The parameter tuple `update_mouvement` passes (source line 342):
`(id, mvt_date, amount, debitcredit, reference, libelle, date.today(),
session.get("user"))` — 8 values, with `id` prepended. -/
def update_mouvement_param_list (mid : Nat) (mvt_date : MyDate) (amount : Rat)
    (debitcredit reference libelle : String) (today : MyDate) (user : String) :
    List SqlValue :=
  [SqlValue.num (mid : Rat), SqlValue.dat mvt_date, SqlValue.num amount,
   SqlValue.str debitcredit, SqlValue.str reference, SqlValue.str libelle,
   SqlValue.dat today, SqlValue.str user]

/-- The admin "edit movement" correction path.  psycopg refuses to
execute a statement whose parameter pack does not match its placeholder
count, raising `ProgrammingError` before anything reaches the server;
`conn.commit()` is skipped and the connection context rolls back, so
the state is returned untouched.  (The equal-count branch is
unreachable for this statement: the list above always has 8 entries.) -/
def update_mouvement (s : LedgerState) (mid : Nat) (mvt_date : MyDate) (amount : Rat)
    (debitcredit reference libelle : String) (today : MyDate) (user : String) :
    LedgerState × Option SqlError :=
  if (update_mouvement_param_list mid mvt_date amount debitcredit reference libelle
        today user).length = update_mouvement_placeholder_count then
    (s, none)
  else (s, some SqlError.programmingError)

/-! ## The ledger operation language -/

/-- The movement-producing entry points of the system: a script import
batch, a Flask import batch, and a transfer. -/
inductive Op where
  | scriptImport (rows : List ScriptRow) (today : MyDate)
  | flaskImport (rows : List FlaskRow) (user : String) (today : MyDate)
  | transfer (from_phone to_phone : String) (amount : Rat) (today : MyDate)

/-- Interpret one operation, returning the new state and the applied
movements it performed. -/
def applyOp (s : LedgerState) : Op → LedgerState × List Applied
  | Op.scriptImport rows today =>
    let r := process_file rows s today
    (r.1, r.2.2)
  | Op.flaskImport rows user today =>
    let r := import_mouvements rows user today s
    (r.1, r.2.2)
  | Op.transfer from_phone to_phone amount today =>
    let r := transferRun s from_phone to_phone amount today
    (r.1, r.2.2)

/-- Interpret a sequence of operations, concatenating the applied
movements in order. -/
def runOps : List Op → LedgerState → LedgerState × List Applied
  | [], s => (s, [])
  | op :: ops, s =>
    let st := applyOp s op
    let rest := runOps ops st.1
    (rest.1, st.2 ++ rest.2)

/-- Total amount of the applied movements of one member in one
direction. -/
def sumDC (evs : List Applied) (p : String) (d : DC) : Rat :=
  ((evs.filter (fun e => e.phone = p ∧ e.dc = d)).map Applied.amount).sum

/-- Credits minus debits of one member's applied movements. -/
def netDelta (evs : List Applied) (p : String) : Rat :=
  sumDC evs p DC.C - sumDC evs p DC.D

/-! ## State access lemmas -/

@[simp] lemma setMembre_membres (s : LedgerState) (p : String) (m : Membre) (q : String) :
    (setMembre s p m).membres q = if q = p then some m else s.membres q := rfl

@[simp] lemma setMembre_mouvements (s : LedgerState) (p : String) (m : Membre) :
    (setMembre s p m).mouvements = s.mouvements := rfl

@[simp] lemma addMvt_membres (s : LedgerState) (mv : Mvt) :
    (addMvt s mv).membres = s.membres := rfl

@[simp] lemma addMvt_mouvements (s : LedgerState) (mv : Mvt) :
    (addMvt s mv).mouvements = s.mouvements ++ [mv] := rfl

/-! ## Sums of applied movements -/

@[simp] lemma sumDC_nil (p : String) (d : DC) : sumDC [] p d = 0 := rfl

@[simp] lemma netDelta_nil (p : String) : netDelta [] p = 0 := by
  simp [netDelta]

lemma sumDC_append (evs evs' : List Applied) (p : String) (d : DC) :
    sumDC (evs ++ evs') p d = sumDC evs p d + sumDC evs' p d := by
  simp [sumDC]

lemma netDelta_append (evs evs' : List Applied) (p : String) :
    netDelta (evs ++ evs') p = netDelta evs p + netDelta evs' p := by
  simp only [netDelta, sumDC_append]
  ring

lemma netDelta_single (ph : String) (a : Rat) (d : DC) (q : String) :
    netDelta [⟨ph, a, d⟩] q =
      if q = ph then (match d with | DC.C => a | DC.D => -a) else 0 := by
  by_cases h : q = ph
  · subst h
    rcases d <;> simp [netDelta, sumDC]
  · rcases d <;> simp [netDelta, sumDC, h, Ne.symm h]

lemma netDelta_eq_zero (evs : List Applied) (q : String)
    (h : ∀ e ∈ evs, e.phone ≠ q) : netDelta evs q = 0 := by
  have hf : ∀ d : DC, sumDC evs q d = 0 := by
    intro d
    have hnil : evs.filter (fun e => decide (e.phone = q) && decide (e.dc = d)) = [] := by
      apply List.filter_eq_nil_iff.mpr
      intro e he
      simp only [Bool.and_eq_true, decide_eq_true_eq, not_and]
      intro hp
      exact absurd hp (h e he)
    simp [sumDC, hnil]
  simp [netDelta, hf]

/-! ## The transition contract

`TransOK s s' evs` packages what every modelled ledger operation
guarantees about one state transition and the applied movements `evs`
it emitted:

1. every surviving member's balance moved by exactly the net of its
   applied movements (a member absent before has been created at
   balance 0 before its movements were applied);
2. member rows are never deleted;
3. applied movements only concern members that exist afterwards;
4. a member's status either stays or moves from `actif` to `inactif`
   (the only automatic transition in the system);
5. movement rows are never deleted. -/
def TransOK (s s' : LedgerState) (evs : List Applied) : Prop :=
  (∀ p m', s'.membres p = some m' → m'.balance = balOr0 s p + netDelta evs p)
  ∧ (∀ p, (s.membres p).isSome → (s'.membres p).isSome)
  ∧ (∀ p, s'.membres p = none → ∀ e ∈ evs, e.phone ≠ p)
  ∧ (∀ p m m', s.membres p = some m → s'.membres p = some m' →
      m'.currentstatute = m.currentstatute ∨
        (m.currentstatute = "actif" ∧ m'.currentstatute = "inactif"))
  ∧ (∀ mv, mv ∈ s.mouvements → mv ∈ s'.mouvements)

lemma transOK_refl (s : LedgerState) : TransOK s s [] := by
  refine ⟨?_, ?_, ?_, ?_, ?_⟩
  · intro p m' h
    simp [balOr0, h]
  · intro p h
    exact h
  · intro p _ e he
    exact absurd he (List.not_mem_nil e)
  · intro p m m' h h'
    rw [h] at h'
    exact Or.inl (by rw [Option.some.injEq] at h'; rw [h'])
  · intro mv h
    exact h

lemma transOK_comp {s s' s'' : LedgerState} {evs evs' : List Applied}
    (h1 : TransOK s s' evs) (h2 : TransOK s' s'' evs') :
    TransOK s s'' (evs ++ evs') := by
  obtain ⟨b1, mono1, ev1, st1, mv1⟩ := h1
  obtain ⟨b2, mono2, ev2, st2, mv2⟩ := h2
  refine ⟨?_, ?_, ?_, ?_, ?_⟩
  · intro p m'' h
    rw [netDelta_append]
    have hb2 := b2 p m'' h
    cases hmid : s'.membres p with
    | some m' =>
      have hb1 := b1 p m' hmid
      have : balOr0 s' p = m'.balance := by simp [balOr0, hmid]
      rw [this, hb1] at hb2
      linarith [hb2]
    | none =>
      have hs : s.membres p = none := by
        cases hs : s.membres p with
        | none => rfl
        | some m =>
          have := mono1 p (by simp [hs])
          rw [hmid] at this
          simp at this
      have hz : netDelta evs p = 0 := netDelta_eq_zero evs p (ev1 p hmid)
      have : balOr0 s' p = 0 := by simp [balOr0, hmid]
      rw [this] at hb2
      have hz0 : balOr0 s p = 0 := by simp [balOr0, hs]
      rw [hz0, hz]
      linarith [hb2]
  · intro p h
    exact mono2 p (mono1 p h)
  · intro p h e he
    rcases List.mem_append.mp he with hl | hr
    · have hmid : s'.membres p = none := by
        cases hmid : s'.membres p with
        | none => rfl
        | some m' =>
          have := mono2 p (by simp [hmid])
          rw [h] at this
          simp at this
      exact ev1 p hmid e hl
    · exact ev2 p h e hr
  · intro p m m'' h h''
    cases hmid : s'.membres p with
    | none =>
      have := mono1 p (by simp [h])
      rw [hmid] at this
      simp at this
    | some m' =>
      rcases st1 p m m' h hmid with e1 | ⟨a1, i1⟩
      · rcases st2 p m' m'' hmid h'' with e2 | ⟨a2, i2⟩
        · exact Or.inl (e2.trans e1)
        · exact Or.inr ⟨e1 ▸ a2, i2⟩
      · rcases st2 p m' m'' hmid h'' with e2 | ⟨a2, i2⟩
        · exact Or.inr ⟨a1, e2.trans i1⟩
        · exact Or.inr ⟨a1, i2⟩
  · intro mv h
    exact mv2 mv (mv1 mv h)

/-! ## Atomic transition lemmas -/

/-- Overwriting an existing member row, moving only its balance (by the
net of `evs`, all of which concern this member) and possibly its status
along the one allowed transition, is a `TransOK` step. -/
lemma setMembre_transOK_of {s : LedgerState} {ph : String} {m m' : Membre}
    {evs : List Applied}
    (hm : s.membres ph = some m)
    (hbal : m'.balance = m.balance + netDelta evs ph)
    (hev : ∀ e ∈ evs, e.phone = ph)
    (hst : m'.currentstatute = m.currentstatute ∨
      (m.currentstatute = "actif" ∧ m'.currentstatute = "inactif")) :
    TransOK s (setMembre s ph m') evs := by
  refine ⟨?_, ?_, ?_, ?_, ?_⟩
  · intro q mq hq
    by_cases hqp : q = ph
    · subst hqp
      rw [setMembre_membres, if_pos rfl] at hq
      have : mq = m' := by injection hq.symm
      rw [this, hbal]
      simp [balOr0, hm]
    · rw [setMembre_membres, if_neg hqp] at hq
      have hz : netDelta evs q = 0 :=
        netDelta_eq_zero evs q (fun e he => (hev e he) ▸ fun hc => hqp hc.symm)
      simp [balOr0, hq, hz]
  · intro q hq
    by_cases hqp : q = ph
    · subst hqp; simp
    · rw [setMembre_membres, if_neg hqp]; exact hq
  · intro q hq e he
    by_cases hqp : q = ph
    · subst hqp; rw [setMembre_membres, if_pos rfl] at hq; exact absurd hq (by simp)
    · exact (hev e he) ▸ fun hc => hqp hc.symm
  · intro q mA mB hA hB
    by_cases hqp : q = ph
    · subst hqp
      rw [setMembre_membres, if_pos rfl] at hB
      have hB' : mB = m' := by injection hB.symm
      have hA' : mA = m := by
        rw [hm] at hA
        injection hA with h
        rw [h]
      rw [hA', hB']
      exact hst
    · rw [setMembre_membres, if_neg hqp] at hB
      rw [hA] at hB
      exact Or.inl (by injection hB with h; rw [h])
  · intro mv h
    simpa using h

/-- Creating a member row at balance 0 where none existed is a
`TransOK` step with no applied movements. -/
lemma setMembre_new_transOK {s : LedgerState} {ph : String} {m' : Membre}
    (hm : s.membres ph = none) (hbal : m'.balance = 0) :
    TransOK s (setMembre s ph m') [] := by
  refine ⟨?_, ?_, ?_, ?_, ?_⟩
  · intro q mq hq
    by_cases hqp : q = ph
    · subst hqp
      rw [setMembre_membres, if_pos rfl] at hq
      have : mq = m' := by injection hq.symm
      rw [this, hbal]
      simp [balOr0, hm]
    · rw [setMembre_membres, if_neg hqp] at hq
      simp [balOr0, hq]
  · intro q hq
    by_cases hqp : q = ph
    · subst hqp; simp
    · rw [setMembre_membres, if_neg hqp]; exact hq
  · intro q _ e he
    exact absurd he (List.not_mem_nil e)
  · intro q mA mB hA hB
    by_cases hqp : q = ph
    · subst hqp; rw [hm] at hA; exact absurd hA (by simp)
    · rw [setMembre_membres, if_neg hqp] at hB
      rw [hA] at hB
      exact Or.inl (by injection hB with h; rw [h])
  · intro mv h
    simpa using h

lemma addMvt_transOK (s : LedgerState) (mv : Mvt) : TransOK s (addMvt s mv) [] := by
  refine ⟨?_, ?_, ?_, ?_, ?_⟩
  · intro p m' h
    rw [addMvt_membres] at h
    simp [balOr0, h]
  · intro p h
    rwa [addMvt_membres]
  · intro p _ e he
    exact absurd he (List.not_mem_nil e)
  · intro p m m' h h'
    rw [addMvt_membres, h] at h'
    exact Or.inl (by injection h' with h2; rw [h2])
  · intro mv' h
    rw [addMvt_mouvements]
    exact List.mem_append_left _ h

/-! Equation lemmas for the branchy operations. -/

lemma updateBalanceMeta_none {s : LedgerState} {ph : String} (delta : Rat)
    (today : MyDate) (user : String) (hm : s.membres ph = none) :
    updateBalanceMeta s ph delta today user = (s, false) := by
  unfold updateBalanceMeta
  rw [hm]

lemma updateBalanceMeta_some {s : LedgerState} {ph : String} {m : Membre} (delta : Rat)
    (today : MyDate) (user : String) (hm : s.membres ph = some m) :
    updateBalanceMeta s ph delta today user =
      (setMembre s ph { m with balance := m.balance + delta, updatedate := today,
                               updateuser := user }, true) := by
  unfold updateBalanceMeta
  rw [hm]

lemma flaskStatusRule_none {s : LedgerState} {ph : String} (user : String)
    (today : MyDate) (hm : s.membres ph = none) :
    flaskStatusRule s ph user today = (s, false) := by
  unfold flaskStatusRule
  rw [hm]

lemma flaskStatusRule_fire {s : LedgerState} {ph : String} {m : Membre} (user : String)
    (today : MyDate) (hm : s.membres ph = some m)
    (hc : m.balance < 0 ∧ m.currentstatute = "actif") :
    flaskStatusRule s ph user today =
      (setMembre s ph { m with currentstatute := "inactif", updatedate := today,
                               updateuser := user }, true) := by
  unfold flaskStatusRule
  rw [hm]
  exact if_pos hc

lemma flaskStatusRule_skip {s : LedgerState} {ph : String} {m : Membre} (user : String)
    (today : MyDate) (hm : s.membres ph = some m)
    (hc : ¬ (m.balance < 0 ∧ m.currentstatute = "actif")) :
    flaskStatusRule s ph user today = (s, false) := by
  unfold flaskStatusRule
  rw [hm]
  exact if_neg hc

lemma updateBalanceMeta_hit_transOK {s : LedgerState} {ph : String} {m : Membre}
    (delta : Rat) (today : MyDate) (user : String) (am : Rat) (d : DC)
    (hm : s.membres ph = some m)
    (hd : (match d with | DC.C => am | DC.D => -am) = delta) :
    TransOK s (updateBalanceMeta s ph delta today user).1 [⟨ph, am, d⟩] := by
  rw [updateBalanceMeta_some delta today user hm]
  refine setMembre_transOK_of hm ?_ ?_ (Or.inl rfl)
  · rw [netDelta_single]
    simp [hd]
  · intro e he
    rw [List.mem_singleton] at he
    rw [he]

lemma flaskStatusRule_transOK (s : LedgerState) (ph : String) (user : String)
    (today : MyDate) : TransOK s (flaskStatusRule s ph user today).1 [] := by
  cases hm : s.membres ph with
  | none =>
    rw [flaskStatusRule_none user today hm]
    exact transOK_refl s
  | some m =>
    by_cases hc : m.balance < 0 ∧ m.currentstatute = "actif"
    · rw [flaskStatusRule_fire user today hm hc]
      refine setMembre_transOK_of hm (by simp) ?_ (Or.inr ⟨hc.2, rfl⟩)
      intro e he
      exact absurd he (List.not_mem_nil e)
    · rw [flaskStatusRule_skip user today hm hc]
      exact transOK_refl s

lemma updateBalanceMeta_ite_transOK (s : LedgerState) (ph : String) (delta : Rat)
    (today : MyDate) (user : String) (am : Rat) (d : DC)
    (hd : (match d with | DC.C => am | DC.D => -am) = delta) :
    TransOK s (updateBalanceMeta s ph delta today user).1
      (if (updateBalanceMeta s ph delta today user).2 then [⟨ph, am, d⟩] else []) := by
  cases hm : s.membres ph with
  | none =>
    have h2 : (updateBalanceMeta s ph delta today user).2 = false := by
      rw [updateBalanceMeta_none delta today user hm]
    have h1 : (updateBalanceMeta s ph delta today user).1 = s := by
      rw [updateBalanceMeta_none delta today user hm]
    rw [h1, h2]
    simpa using transOK_refl s
  | some m =>
    have h2 : (updateBalanceMeta s ph delta today user).2 = true := by
      rw [updateBalanceMeta_some delta today user hm]
    rw [h2]
    simpa using updateBalanceMeta_hit_transOK delta today user am d hm hd

/-- The script's `apply_balance` on an existing member is a `TransOK`
step whose single applied movement records the direction the way the
source branches (`C` adds, anything else subtracts). -/
lemma apply_balance_transOK {s : LedgerState} {ph : String} {m : Membre}
    (a : Rat) (dc : String) (hm : s.membres ph = some m) :
    TransOK s (apply_balance s ph a dc) [⟨ph, a, if dc = "C" then DC.C else DC.D⟩] := by
  have h1 : apply_balance s ph a dc =
      setMembre s ph
        { m with balance := if dc = "C" then m.balance + a else m.balance - a } := by
    unfold apply_balance
    rw [hm]
  rw [h1]
  refine setMembre_transOK_of hm ?_ ?_ (Or.inl rfl)
  · rw [netDelta_single]
    by_cases hdc : dc = "C"
    · simp [hdc]
    · simp only [if_neg hdc, if_pos rfl, if_true]
      ring
  · intro e he
    rw [List.mem_singleton] at he
    rw [he]

lemma create_member_minimal_present {s : LedgerState} {ph : String} {m : Membre}
    (fn ln : String) (today : MyDate) (hm : s.membres ph = some m) :
    create_member_minimal s ph fn ln today = s := by
  unfold create_member_minimal
  rw [hm]

lemma create_member_minimal_transOK (s : LedgerState) (ph fn ln : String)
    (today : MyDate) : TransOK s (create_member_minimal s ph fn ln today) [] := by
  cases hm : s.membres ph with
  | some m =>
    rw [create_member_minimal_present fn ln today hm]
    exact transOK_refl s
  | none =>
    unfold create_member_minimal
    rw [hm]
    exact setMembre_new_transOK hm rfl

lemma create_member_minimal_isSome (s : LedgerState) (ph fn ln : String)
    (today : MyDate) : ((create_member_minimal s ph fn ln today).membres ph).isSome := by
  cases hm : s.membres ph with
  | some m =>
    rw [create_member_minimal_present fn ln today hm]
    simp [hm]
  | none =>
    unfold create_member_minimal
    rw [hm]
    simp

lemma scriptRowEffect_transOK (s : LedgerState) (p : ParsedRow) (today : MyDate) :
    TransOK s (scriptRowEffect s p today).1 (scriptRowEffect s p today).2.2 := by
  have e1 : (scriptRowEffect s p today).1 =
      apply_balance
        (addMvt (if member_exists s p.phone then s
                 else create_member_minimal s p.phone p.firstname p.lastname today)
          (scriptMvtOf p today))
        p.phone p.amount p.dc := rfl
  have e2 : (scriptRowEffect s p today).2.2 =
      [⟨p.phone, p.amount, if p.dc = "C" then DC.C else DC.D⟩] := rfl
  rw [e1, e2]
  have hA : TransOK s
      (if member_exists s p.phone then s
       else create_member_minimal s p.phone p.firstname p.lastname today) [] := by
    by_cases hex : member_exists s p.phone = true
    · rw [if_pos hex]
      exact transOK_refl s
    · rw [if_neg hex]
      exact create_member_minimal_transOK s p.phone p.firstname p.lastname today
  have hsome : (((if member_exists s p.phone then s
      else create_member_minimal s p.phone p.firstname p.lastname today)).membres
        p.phone).isSome := by
    by_cases hex : member_exists s p.phone = true
    · rw [if_pos hex]
      exact hex
    · rw [if_neg hex]
      exact create_member_minimal_isSome s p.phone p.firstname p.lastname today
  obtain ⟨m1, hm1⟩ := Option.isSome_iff_exists.mp hsome
  have hmid : ((addMvt (if member_exists s p.phone then s
      else create_member_minimal s p.phone p.firstname p.lastname today)
        (scriptMvtOf p today)).membres p.phone) = some m1 := hm1
  have hcomp := transOK_comp (transOK_comp hA (addMvt_transOK _ (scriptMvtOf p today)))
    (apply_balance_transOK p.amount p.dc hmid)
  simpa using hcomp

lemma flaskApplyRow_transOK (s : LedgerState) (p : FlaskParsed) (user : String)
    (today : MyDate) :
    TransOK s (flaskApplyRow s p user today).1 (flaskApplyRow s p user today).2.2 := by
  have e1 : (flaskApplyRow s p user today).1 =
      (flaskStatusRule
        (updateBalanceMeta (addMvt s (flaskMvtOf p today)) p.phone
          (if p.debitcredit = "D" then -p.amount else p.amount) today user).1
        p.phone user today).1 := rfl
  have e2 : (flaskApplyRow s p user today).2.2 =
      (if (updateBalanceMeta (addMvt s (flaskMvtOf p today)) p.phone
          (if p.debitcredit = "D" then -p.amount else p.amount) today user).2 then
        [⟨p.phone, p.amount, dcOf p.debitcredit⟩] else []) := rfl
  rw [e1, e2]
  have hd : (match dcOf p.debitcredit with | DC.C => p.amount | DC.D => -p.amount) =
      (if p.debitcredit = "D" then -p.amount else p.amount) := by
    unfold dcOf
    by_cases hdc : p.debitcredit = "D" <;> simp [hdc]
  have hA : TransOK s (addMvt s (flaskMvtOf p today)) [] := addMvt_transOK s _
  have hB := updateBalanceMeta_ite_transOK (addMvt s (flaskMvtOf p today)) p.phone
    (if p.debitcredit = "D" then -p.amount else p.amount) today user p.amount
    (dcOf p.debitcredit) hd
  have hC := flaskStatusRule_transOK
    (updateBalanceMeta (addMvt s (flaskMvtOf p today)) p.phone
      (if p.debitcredit = "D" then -p.amount else p.amount) today user).1
    p.phone user today
  have hcomp := transOK_comp (transOK_comp hA hB) hC
  simpa using hcomp

lemma transferFinish_transOK (s2 : LedgerState) (f t : String) (a : Rat)
    (today : MyDate) :
    TransOK s2 (transferFinish s2 f t a today).1 (transferFinish s2 f t a today).2.2 :=
  transOK_comp (updateBalanceMeta_ite_transOK s2 f (-a) today f a DC.D rfl)
    (updateBalanceMeta_ite_transOK (updateBalanceMeta s2 f (-a) today f).1 t a today
      f a DC.C rfl)

lemma transferRun_transOK (s : LedgerState) (f t : String) (a : Rat) (today : MyDate) :
    TransOK s (transferRun s f t a today).1 (transferRun s f t a today).2.2 := by
  unfold transferRun
  by_cases h1 : a ≤ 0
  · rw [if_pos h1]
    exact transOK_refl s
  · rw [if_neg h1]
    cases hto : s.membres t with
    | none => exact transOK_refl s
    | some tm =>
      dsimp only
      by_cases h2 : balOr0 s f < a
      · rw [if_pos h2]
        exact transOK_refl s
      · rw [if_neg h2]
        cases hfm : s.membres f with
        | none => exact transOK_refl s
        | some me =>
          dsimp only
          by_cases h3 : refExists s (trRefD f) = true
          · rw [if_pos h3]
            exact transOK_refl s
          · rw [if_neg h3]
            by_cases h4 : refExists (addMvt s (transferDebitMvt f me a today))
                (trRefC f) = true
            · rw [if_pos h4]
              exact transOK_refl s
            · rw [if_neg h4]
              have hcomp := transOK_comp
                (transOK_comp (addMvt_transOK s (transferDebitMvt f me a today))
                  (addMvt_transOK (addMvt s (transferDebitMvt f me a today))
                    (transferCreditMvt f t tm a today)))
                (transferFinish_transOK
                  (addMvt (addMvt s (transferDebitMvt f me a today))
                    (transferCreditMvt f t tm a today)) f t a today)
              simpa using hcomp

lemma scriptAux_transOK (today : MyDate) (rows : List ScriptRow) :
    ∀ s, TransOK s (scriptAux today rows s).1 (scriptAux today rows s).2.2 := by
  induction rows with
  | nil =>
    intro s
    exact transOK_refl s
  | cons r rs ih =>
    intro s
    cases hp : scriptParseRow r with
    | none =>
      simp only [scriptAux, hp]
      exact ih s
    | some p =>
      by_cases hdup : payment_exists s p.payment_id = true
      · simp only [scriptAux, hp, if_pos hdup]
        exact ih s
      · simp only [scriptAux, hp, if_neg hdup]
        exact transOK_comp (scriptRowEffect_transOK s p today)
          (ih (scriptRowEffect s p today).1)

lemma flaskAux_transOK (user : String) (today : MyDate) (rows : List FlaskRow) :
    ∀ s ab, TransOK s (flaskAux user today rows s ab).1
      (flaskAux user today rows s ab).2.2.1 := by
  induction rows with
  | nil =>
    intro s ab
    exact transOK_refl s
  | cons r rs ih =>
    intro s ab
    cases ab with
    | true =>
      simp only [flaskAux, if_true]
      exact ih s true
    | false =>
      cases hp : flaskParse r with
      | none =>
        simp only [flaskAux, hp, Bool.false_eq_true, if_false]
        exact ih s false
      | some p =>
        by_cases href : refExists s p.reference = true
        · simp only [flaskAux, hp, Bool.false_eq_true, if_false, if_pos href]
          exact ih s true
        · simp only [flaskAux, hp, Bool.false_eq_true, if_false, if_neg href]
          exact transOK_comp (flaskApplyRow_transOK s p user today)
            (ih (flaskApplyRow s p user today).1 false)

lemma import_mouvements_transOK (rows : List FlaskRow) (user : String) (today : MyDate)
    (s0 : LedgerState) :
    TransOK s0 (import_mouvements rows user today s0).1
      (import_mouvements rows user today s0).2.2 := by
  unfold import_mouvements
  by_cases hab : (flaskAux user today rows s0 false).2.2.2 = true
  · rw [if_pos hab]
    exact transOK_refl s0
  · rw [if_neg hab]
    exact flaskAux_transOK user today rows s0 false

lemma process_file_transOK (rows : List ScriptRow) (s : LedgerState) (today : MyDate) :
    TransOK s (process_file rows s today).1 (process_file rows s today).2.2 :=
  scriptAux_transOK today rows s

lemma applyOp_transOK (s : LedgerState) (op : Op) :
    TransOK s (applyOp s op).1 (applyOp s op).2 := by
  cases op with
  | scriptImport rows today => exact process_file_transOK rows s today
  | flaskImport rows user today => exact import_mouvements_transOK rows user today s
  | transfer f t a today => exact transferRun_transOK s f t a today

lemma runOps_transOK (ops : List Op) :
    ∀ s, TransOK s (runOps ops s).1 (runOps ops s).2 := by
  induction ops with
  | nil =>
    intro s
    exact transOK_refl s
  | cons op ops ih =>
    intro s
    exact transOK_comp (applyOp_transOK s op) (ih (applyOp s op).1)

/-! ## Exact status preservation (script pipeline and transfer)

Neither the script pipeline nor the transfer route contains any status
UPDATE; `StatusEq` captures that they leave every existing member's
`currentstatute` exactly as it was. -/

def StatusEq (s s' : LedgerState) : Prop :=
  ∀ p m m', s.membres p = some m → s'.membres p = some m' →
    m'.currentstatute = m.currentstatute

lemma statusEq_refl (s : LedgerState) : StatusEq s s := by
  intro p m m' h h'
  rw [h] at h'
  injection h' with h2
  rw [h2]

lemma statusEq_comp {s s' s'' : LedgerState}
    (mono : ∀ p, (s.membres p).isSome → (s'.membres p).isSome)
    (h1 : StatusEq s s') (h2 : StatusEq s' s'') : StatusEq s s'' := by
  intro p m m'' h h''
  cases hmid : s'.membres p with
  | none =>
    have := mono p (by simp [h])
    rw [hmid] at this
    simp at this
  | some m' =>
    exact (h2 p m' m'' hmid h'').trans (h1 p m m' h hmid)

lemma statusEq_of_same_statute {s : LedgerState} {ph : String} {m m1 : Membre}
    (hm : s.membres ph = some m) (hst : m1.currentstatute = m.currentstatute) :
    StatusEq s (setMembre s ph m1) := by
  intro p mA mB hA hB
  by_cases hqp : p = ph
  · subst hqp
    rw [setMembre_membres, if_pos rfl] at hB
    rw [hm] at hA
    injection hA with h1
    injection hB.symm with h2
    rw [h2, hst, h1]
  · rw [setMembre_membres, if_neg hqp] at hB
    rw [hA] at hB
    injection hB with h2
    rw [h2]

lemma statusEq_of_new {s : LedgerState} {ph : String} {m1 : Membre}
    (hm : s.membres ph = none) : StatusEq s (setMembre s ph m1) := by
  intro p mA mB hA hB
  by_cases hqp : p = ph
  · subst hqp
    rw [hm] at hA
    exact absurd hA (by simp)
  · rw [setMembre_membres, if_neg hqp] at hB
    rw [hA] at hB
    injection hB with h2
    rw [h2]

lemma addMvt_statusEq (s : LedgerState) (mv : Mvt) : StatusEq s (addMvt s mv) := by
  intro p m m' h h'
  rw [addMvt_membres] at h'
  rw [h] at h'
  injection h' with h2
  rw [h2]

lemma apply_balance_statusEq (s : LedgerState) (ph : String) (a : Rat) (dc : String) :
    StatusEq s (apply_balance s ph a dc) := by
  cases hm : s.membres ph with
  | none =>
    have h1 : apply_balance s ph a dc = s := by
      unfold apply_balance
      rw [hm]
    rw [h1]
    exact statusEq_refl s
  | some m =>
    have h1 : apply_balance s ph a dc =
        setMembre s ph
          { m with balance := if dc = "C" then m.balance + a else m.balance - a } := by
      unfold apply_balance
      rw [hm]
    rw [h1]
    exact statusEq_of_same_statute hm rfl

lemma updateBalanceMeta_statusEq (s : LedgerState) (ph : String) (delta : Rat)
    (today : MyDate) (user : String) :
    StatusEq s (updateBalanceMeta s ph delta today user).1 := by
  cases hm : s.membres ph with
  | none =>
    rw [updateBalanceMeta_none delta today user hm]
    exact statusEq_refl s
  | some m =>
    rw [updateBalanceMeta_some delta today user hm]
    exact statusEq_of_same_statute hm rfl

lemma create_member_minimal_statusEq (s : LedgerState) (ph fn ln : String)
    (today : MyDate) : StatusEq s (create_member_minimal s ph fn ln today) := by
  cases hm : s.membres ph with
  | some m =>
    rw [create_member_minimal_present fn ln today hm]
    exact statusEq_refl s
  | none =>
    unfold create_member_minimal
    rw [hm]
    exact statusEq_of_new hm

lemma scriptRowEffect_statusEq (s : LedgerState) (p : ParsedRow) (today : MyDate) :
    StatusEq s (scriptRowEffect s p today).1 := by
  have e1 : (scriptRowEffect s p today).1 =
      apply_balance
        (addMvt (if member_exists s p.phone then s
                 else create_member_minimal s p.phone p.firstname p.lastname today)
          (scriptMvtOf p today))
        p.phone p.amount p.dc := rfl
  rw [e1]
  have hA : StatusEq s
      (if member_exists s p.phone then s
       else create_member_minimal s p.phone p.firstname p.lastname today) := by
    by_cases hex : member_exists s p.phone = true
    · rw [if_pos hex]
      exact statusEq_refl s
    · rw [if_neg hex]
      exact create_member_minimal_statusEq s p.phone p.firstname p.lastname today
  have hAm := (by
    by_cases hex : member_exists s p.phone = true
    · rw [if_pos hex]
      exact (transOK_refl s).2.1
    · rw [if_neg hex]
      exact (create_member_minimal_transOK s p.phone p.firstname p.lastname today).2.1 :
    ∀ q, ((s.membres q).isSome) →
      (((if member_exists s p.phone then s
         else create_member_minimal s p.phone p.firstname p.lastname today)).membres
            q).isSome)
  refine statusEq_comp ?_ hA ?_
  · exact hAm
  · refine statusEq_comp ?_ (addMvt_statusEq _ _) (apply_balance_statusEq _ _ _ _)
    intro q h
    rwa [addMvt_membres]

lemma scriptAux_statusEq (today : MyDate) (rows : List ScriptRow) :
    ∀ s, StatusEq s (scriptAux today rows s).1 := by
  induction rows with
  | nil =>
    intro s
    exact statusEq_refl s
  | cons r rs ih =>
    intro s
    cases hp : scriptParseRow r with
    | none =>
      simp only [scriptAux, hp]
      exact ih s
    | some p =>
      by_cases hdup : payment_exists s p.payment_id = true
      · simp only [scriptAux, hp, if_pos hdup]
        exact ih s
      · simp only [scriptAux, hp, if_neg hdup]
        exact statusEq_comp (scriptRowEffect_transOK s p today).2.1
          (scriptRowEffect_statusEq s p today) (ih (scriptRowEffect s p today).1)

lemma process_file_statusEq (rows : List ScriptRow) (s : LedgerState) (today : MyDate) :
    StatusEq s (process_file rows s today).1 :=
  scriptAux_statusEq today rows s

lemma transferFinish_statusEq (s2 : LedgerState) (f t : String) (a : Rat)
    (today : MyDate) : StatusEq s2 (transferFinish s2 f t a today).1 := by
  have e1 : (transferFinish s2 f t a today).1 =
      (updateBalanceMeta (updateBalanceMeta s2 f (-a) today f).1 t a today f).1 := rfl
  rw [e1]
  exact statusEq_comp (updateBalanceMeta_ite_transOK s2 f (-a) today f a DC.D rfl).2.1
    (updateBalanceMeta_statusEq s2 f (-a) today f)
    (updateBalanceMeta_statusEq (updateBalanceMeta s2 f (-a) today f).1 t a today f)

lemma transferRun_statusEq (s : LedgerState) (f t : String) (a : Rat) (today : MyDate) :
    StatusEq s (transferRun s f t a today).1 := by
  unfold transferRun
  by_cases h1 : a ≤ 0
  · rw [if_pos h1]
    exact statusEq_refl s
  · rw [if_neg h1]
    cases hto : s.membres t with
    | none => exact statusEq_refl s
    | some tm =>
      dsimp only
      by_cases h2 : balOr0 s f < a
      · rw [if_pos h2]
        exact statusEq_refl s
      · rw [if_neg h2]
        cases hfm : s.membres f with
        | none => exact statusEq_refl s
        | some me =>
          dsimp only
          by_cases h3 : refExists s (trRefD f) = true
          · rw [if_pos h3]
            exact statusEq_refl s
          · rw [if_neg h3]
            by_cases h4 : refExists (addMvt s (transferDebitMvt f me a today))
                (trRefC f) = true
            · rw [if_pos h4]
              exact statusEq_refl s
            · rw [if_neg h4]
              refine statusEq_comp
                (addMvt_transOK s (transferDebitMvt f me a today)).2.1
                (addMvt_statusEq s (transferDebitMvt f me a today)) ?_
              refine statusEq_comp
                (addMvt_transOK (addMvt s (transferDebitMvt f me a today))
                  (transferCreditMvt f t tm a today)).2.1
                (addMvt_statusEq (addMvt s (transferDebitMvt f me a today))
                  (transferCreditMvt f t tm a today)) ?_
              exact transferFinish_statusEq
                (addMvt (addMvt s (transferDebitMvt f me a today))
                  (transferCreditMvt f t tm a today)) f t a today

/-- Status outcome of the route's conditional status UPDATE on a
member row. -/
lemma flaskStatusRule_status (s : LedgerState) (ph : String) (m1 : Membre)
    (user : String) (today : MyDate) (hm : s.membres ph = some m1) :
    ∃ m', (flaskStatusRule s ph user today).1.membres ph = some m' ∧
      m'.currentstatute =
        (if m1.balance < 0 ∧ m1.currentstatute = "actif" then "inactif"
         else m1.currentstatute) := by
  by_cases hc : m1.balance < 0 ∧ m1.currentstatute = "actif"
  · rw [flaskStatusRule_fire user today hm hc]
    refine ⟨{ m1 with
      currentstatute := "inactif"
      updatedate := today
      updateuser := user }, ?_, ?_⟩
    · simp
    · rw [if_pos hc]
  · rw [flaskStatusRule_skip user today hm hc]
    exact ⟨m1, hm, by rw [if_neg hc]⟩

/-- Status outcome of one applied Flask import row on an existing
member: `inactif` exactly when the balance after the row's delta is
strictly negative and the status was exactly `actif`; otherwise the
status is untouched. -/
lemma flaskApplyRow_status (s : LedgerState) (p : FlaskParsed) (user : String)
    (today : MyDate) (m : Membre) (hm : s.membres p.phone = some m) :
    ∃ m', (flaskApplyRow s p user today).1.membres p.phone = some m' ∧
      m'.currentstatute =
        (if m.balance + (if p.debitcredit = "D" then -p.amount else p.amount) < 0 ∧
            m.currentstatute = "actif" then "inactif" else m.currentstatute) := by
  have e1 : (flaskApplyRow s p user today).1 =
      (flaskStatusRule
        (updateBalanceMeta (addMvt s (flaskMvtOf p today)) p.phone
          (if p.debitcredit = "D" then -p.amount else p.amount) today user).1
        p.phone user today).1 := rfl
  rw [e1]
  have hm1 : (addMvt s (flaskMvtOf p today)).membres p.phone = some m := hm
  rw [updateBalanceMeta_some (if p.debitcredit = "D" then -p.amount else p.amount)
    today user hm1]
  dsimp only
  obtain ⟨m', h1, h2⟩ := flaskStatusRule_status
    (setMembre (addMvt s (flaskMvtOf p today)) p.phone
      { m with
        balance := m.balance + (if p.debitcredit = "D" then -p.amount else p.amount)
        updatedate := today
        updateuser := user })
    p.phone
    { m with
      balance := m.balance + (if p.debitcredit = "D" then -p.amount else p.amount)
      updatedate := today
      updateuser := user }
    user today (by simp)
  exact ⟨m', h1, h2⟩

/-! ## Concrete fixtures used by witnesses and counterexamples -/

def exDate : MyDate := ⟨2026, 2, 3⟩

/-- A generic pre-existing member row. -/
def exMember (ph : String) (bal : Rat) (statute : String) : Membre :=
  { phone := ph
    membertype := "membre"
    mentor := "admin"
    lastname := "Ln"
    firstname := "Fn"
    birthdate := "1990-01-01"
    idtype := "N/A"
    currentstatute := statute
    balance := bal
    updatedate := ⟨2026, 1, 1⟩
    updateuser := "u0"
    password_hash := "h0" }

/-- Two members: `111` (balance 5, actif) and `222` (balance 0, actif);
empty movement log. -/
def exState2 : LedgerState :=
  ⟨fun q => if q = "111" then some (exMember ("111") 5 ("actif"))
    else if q = "222" then some (exMember ("222") 0 ("actif")) else none, []⟩

/-! ## Claim C1 -/

/-- Claim C1: for every member and every sequence of ledger operations
(script/Flask import batches and transfers), the stored balance equals
its value at the start of the window plus the sum of the credited
amounts minus the sum of the debited amounts of the applied movements
of that member — for a member auto-created during the window the start
value is 0, and only movements applied after its creation occur for it
(part 3 of `TransOK`), so the balance is exactly the credits-minus-
debits of its applied movements since account creation.  The balance is
maintained incrementally (each operation issues
`balance = balance ± amount` updates); it is never recomputed from the
Movement Log. -/
theorem claim_C1_balance_sum (ops : List Op) (s0 : LedgerState) (p : String)
    (m : Membre) (hm : (runOps ops s0).1.membres p = some m) :
    m.balance = balOr0 s0 p +
      (sumDC (runOps ops s0).2 p DC.C - sumDC (runOps ops s0).2 p DC.D) := by
  have h := (runOps_transOK ops s0).1 p m hm
  simpa [netDelta] using h

def c1Row : ScriptRow :=
  ⟨some ("P1"), some ("111"), some ("Fn"), some ("Ln"), some ("2026-01-15"),
   some ("10"), some ("C"), some ("R1")⟩

def c1Ops : List Op :=
  [Op.scriptImport [c1Row] exDate, Op.transfer ("111") ("222") 3 exDate]

/-- Member `111` after a 10 credit (script import) and a 3 debit
(transfer): balance 12, audit fields stamped by the transfer. -/
def c1Final : Membre :=
  { exMember ("111") 12 ("actif") with updatedate := exDate, updateuser := "111" }

set_option maxRecDepth 8000 in
theorem claim_C1_witness :
    c1Final.balance = balOr0 exState2 ("111") +
      (sumDC (runOps c1Ops exState2).2 ("111") DC.C -
        sumDC (runOps c1Ops exState2).2 ("111") DC.D) :=
  claim_C1_balance_sum c1Ops exState2 ("111") c1Final (by with_unfolding_all decide)

/-! ## Claim C2 -/

/-- A valid debit row of 5 for member `777` in the script pipeline. -/
def c2Row : ScriptRow :=
  ⟨some ("P2"), some ("777"), some ("Fn"), some ("Ln"), some ("2026-01-15"),
   some ("5"), some ("D"), some ("R2")⟩

/-- Member `777`: balance 4, status `actif`. -/
def c2State : LedgerState :=
  ⟨fun q => if q = "777" then some (exMember ("777") 4 ("actif")) else none, []⟩

set_option maxRecDepth 8000 in
/-- Claim C2 counterexample: the standalone import script applies a
movement (a 5 debit on an `actif` member at balance 4) that leaves the
balance strictly negative, yet the status stays `actif` — the script's
`apply_balance` contains no status rule, so "for every movement
application ... the status transitions to `inactif`" is false as
stated. -/
theorem claim_C2_counterexample :
    ((process_file [c2Row] c2State exDate).1.membres ("777")).map Membre.balance =
        some (-1) ∧
      ((process_file [c2Row] c2State exDate).1.membres ("777")).map
          Membre.currentstatute = some ("actif") ∧
      (process_file [c2Row] c2State exDate).2.1.inserted_mouvements = 1 := by
  refine ⟨?_, ?_, ?_⟩ <;> with_unfolding_all decide

/-- Claim C2 (amended): the status side-effect rule holds for movement
applications of the *Flask import route* — after each applied row, the
member's status is `inactif` exactly when the post-update balance is
strictly negative and the prior status was exactly `actif`, and is
otherwise unchanged (in particular a balance of exactly 0 leaves the
status alone).  The standalone import script and the transfer legs
never change any member's status at all.  Across any operation
sequence, a status of `inactif` is never automatically reversed. -/
theorem claim_C2_status_rule :
    (∀ s p user today m, s.membres (FlaskParsed.phone p) = some m →
      ∃ m', (flaskApplyRow s p user today).1.membres (FlaskParsed.phone p) = some m' ∧
        m'.currentstatute =
          (if m.balance + (if p.debitcredit = "D" then -p.amount else p.amount) < 0 ∧
              m.currentstatute = "actif" then "inactif" else m.currentstatute)) ∧
    (∀ rows s today q m m', s.membres q = some m →
      (process_file rows s today).1.membres q = some m' →
      m'.currentstatute = m.currentstatute) ∧
    (∀ s f t a today q m m', s.membres q = some m →
      (transferRun s f t a today).1.membres q = some m' →
      m'.currentstatute = m.currentstatute) ∧
    (∀ ops s0 q m m', s0.membres q = some m →
      (runOps ops s0).1.membres q = some m' →
      m.currentstatute = "inactif" → m'.currentstatute = "inactif") := by
  refine ⟨?_, ?_, ?_, ?_⟩
  · intro s p user today m hm
    exact flaskApplyRow_status s p user today m hm
  · intro rows s today q m m' hm hm'
    exact process_file_statusEq rows s today q m m' hm hm'
  · intro s f t a today q m m' hm hm'
    exact transferRun_statusEq s f t a today q m m' hm hm'
  · intro ops s0 q m m' hm hm' hin
    rcases (runOps_transOK ops s0).2.2.2.1 q m m' hm hm' with he | ⟨ha, _⟩
    · rw [he, hin]
    · exact absurd (hin.symm.trans ha) (by decide)

/-- A Flask row debiting 6 from member `111` (balance 5 → -1). -/
def c2FlaskParsed : FlaskParsed :=
  ⟨"111", "Fn", "Ln", "D", "RX", 6, exDate⟩

set_option maxRecDepth 8000 in
theorem claim_C2_witness :
    (∃ m', (flaskApplyRow exState2 c2FlaskParsed ("admin") exDate).1.membres
        (FlaskParsed.phone c2FlaskParsed) = some m' ∧
      m'.currentstatute =
        (if (exMember ("111") 5 ("actif")).balance +
            (if c2FlaskParsed.debitcredit = "D" then -c2FlaskParsed.amount
             else c2FlaskParsed.amount) < 0 ∧
            (exMember ("111") 5 ("actif")).currentstatute = "actif" then "inactif"
         else (exMember ("111") 5 ("actif")).currentstatute)) ∧
    (∀ m', (runOps [Op.transfer ("888") ("999") 1 exDate]
        (⟨fun q => if q = "888" then some (exMember ("888") 3 ("inactif")) else none,
          []⟩ : LedgerState)).1.membres ("888") = some m' →
      m'.currentstatute = "inactif") := by
  constructor
  · exact claim_C2_status_rule.1 exState2 c2FlaskParsed ("admin") exDate
      (exMember ("111") 5 ("actif")) (by with_unfolding_all decide)
  · intro m' hm'
    exact claim_C2_status_rule.2.2.2
      [Op.transfer ("888") ("999") 1 exDate]
      (⟨fun q => if q = "888" then some (exMember ("888") 3 ("inactif")) else none,
        []⟩ : LedgerState)
      ("888") (exMember ("888") 3 ("inactif")) m' (by with_unfolding_all decide) hm'
      (by with_unfolding_all decide)

/-! ## Transfer support lemmas -/

lemma data_append (a b : String) : (a ++ b).data = a.data ++ b.data := by
  cases a
  cases b
  rfl

/-- The two legs of one transfer always carry distinct references. -/
lemma trRefD_ne_trRefC (f : String) : trRefD f ≠ trRefC f := by
  unfold trRefD trRefC
  intro h
  have h2 := congrArg String.data h
  rw [data_append, data_append] at h2
  have h3 := List.append_cancel_left h2
  simp at h3

lemma updateBalanceMeta_mouvements (s : LedgerState) (ph : String) (delta : Rat)
    (today : MyDate) (user : String) :
    (updateBalanceMeta s ph delta today user).1.mouvements = s.mouvements := by
  cases hm : s.membres ph with
  | none => rw [updateBalanceMeta_none delta today user hm]
  | some m =>
    rw [updateBalanceMeta_some delta today user hm]
    rfl

lemma transferFinish_mouvements (s2 : LedgerState) (f t : String) (a : Rat)
    (today : MyDate) : (transferFinish s2 f t a today).1.mouvements = s2.mouvements := by
  have e1 : (transferFinish s2 f t a today).1 =
      (updateBalanceMeta (updateBalanceMeta s2 f (-a) today f).1 t a today f).1 := rfl
  rw [e1, updateBalanceMeta_mouvements, updateBalanceMeta_mouvements]

lemma refExists_addMvt (s : LedgerState) (mv : Mvt) (r : String) :
    refExists (addMvt s mv) r = (refExists s r || (mv.reference = r : Bool)) := by
  simp [refExists, addMvt, List.any_append]

/-! ## Claim C5 -/

/-- Claim C5: the transfer's preconditions are checked in source order
with the first failure winning, and a failed precondition produces zero
movements and zero balance changes (the state is returned untouched):
`amount <= 0` gives InvalidAmount; then an unknown beneficiary gives
BeneficiaryNotFound; then a sender balance strictly below the amount
gives InsufficientFunds. -/
theorem claim_C5_precondition_order (s : LedgerState) (f t : String) (a : Rat)
    (today : MyDate) :
    (a ≤ 0 → transferRun s f t a today = (s, some TransferError.invalidAmount, [])) ∧
    (0 < a → s.membres t = none →
      transferRun s f t a today = (s, some TransferError.beneficiaryNotFound, [])) ∧
    (∀ mT, 0 < a → s.membres t = some mT → balOr0 s f < a →
      transferRun s f t a today = (s, some TransferError.insufficientFunds, [])) := by
  refine ⟨?_, ?_, ?_⟩
  · intro h
    unfold transferRun
    rw [if_pos h]
  · intro hpos ht
    unfold transferRun
    rw [if_neg (not_le.mpr hpos), ht]
  · intro mT hpos ht hlt
    unfold transferRun
    rw [if_neg (not_le.mpr hpos), ht]
    dsimp only
    rw [if_pos hlt]

set_option maxRecDepth 8000 in
theorem claim_C5_witness :
    transferRun exState2 ("111") ("222") 0 exDate =
        (exState2, some TransferError.invalidAmount, []) ∧
      transferRun exState2 ("111") ("333") 2 exDate =
        (exState2, some TransferError.beneficiaryNotFound, []) ∧
      transferRun exState2 ("111") ("222") 9 exDate =
        (exState2, some TransferError.insufficientFunds, []) :=
  ⟨(claim_C5_precondition_order exState2 ("111") ("222") 0 exDate).1
      (by with_unfolding_all decide),
   (claim_C5_precondition_order exState2 ("111") ("333") 2 exDate).2.1
      (by with_unfolding_all decide) (by with_unfolding_all decide),
   (claim_C5_precondition_order exState2 ("111") ("222") 9 exDate).2.2
      (exMember ("222") 0 ("actif")) (by with_unfolding_all decide)
      (by with_unfolding_all decide) (by with_unfolding_all decide)⟩

/-! ## Claim C10 -/

/-- Claim C10: transfer references are `TR-<senderPhone>-D` / `-C`,
constant per sender.  (1) once a movement with the sender's debit
reference exists, every further transfer attempt by that sender returns
an error and leaves the state (balances and Movement Log) untouched;
(2) a successful transfer requires the debit reference to be absent and
records it; (3) no ledger operation ever removes a reference from the
log — so at most one transfer per sender can ever succeed. -/
theorem claim_C10_constant_reference :
    (∀ s f t a today, refExists s (trRefD f) = true →
      ∃ e, transferRun s f t a today = (s, some e, [])) ∧
    (∀ s f t a today s' evs, transferRun s f t a today = (s', none, evs) →
      refExists s (trRefD f) = false ∧ refExists s' (trRefD f) = true) ∧
    (∀ op s r, refExists s r = true → refExists (applyOp s op).1 r = true) := by
  refine ⟨?_, ?_, ?_⟩
  · intro s f t a today href
    unfold transferRun
    by_cases h1 : a ≤ 0
    · rw [if_pos h1]
      exact ⟨TransferError.invalidAmount, rfl⟩
    · rw [if_neg h1]
      cases hto : s.membres t with
      | none => exact ⟨TransferError.beneficiaryNotFound, rfl⟩
      | some tm =>
        dsimp only
        by_cases h2 : balOr0 s f < a
        · rw [if_pos h2]
          exact ⟨TransferError.insufficientFunds, rfl⟩
        · rw [if_neg h2]
          cases hfm : s.membres f with
          | none => exact ⟨TransferError.transferFailed, rfl⟩
          | some me =>
            dsimp only
            rw [if_pos href]
            exact ⟨TransferError.transferFailed, rfl⟩
  · intro s f t a today s' evs h
    unfold transferRun at h
    by_cases h1 : a ≤ 0
    · rw [if_pos h1] at h
      exact absurd (congrArg (fun x => x.2.1) h) (by simp)
    · rw [if_neg h1] at h
      cases hto : s.membres t with
      | none =>
        rw [hto] at h
        exact absurd (congrArg (fun x => x.2.1) h) (by simp)
      | some tm =>
        rw [hto] at h
        dsimp only at h
        by_cases h2 : balOr0 s f < a
        · rw [if_pos h2] at h
          exact absurd (congrArg (fun x => x.2.1) h) (by simp)
        · rw [if_neg h2] at h
          cases hfm : s.membres f with
          | none =>
            rw [hfm] at h
            exact absurd (congrArg (fun x => x.2.1) h) (by simp)
          | some me =>
            rw [hfm] at h
            dsimp only at h
            by_cases h3 : refExists s (trRefD f) = true
            · rw [if_pos h3] at h
              exact absurd (congrArg (fun x => x.2.1) h) (by simp)
            · rw [if_neg h3] at h
              by_cases h4 : refExists (addMvt s (transferDebitMvt f me a today))
                  (trRefC f) = true
              · rw [if_pos h4] at h
                exact absurd (congrArg (fun x => x.2.1) h) (by simp)
              · rw [if_neg h4] at h
                refine ⟨Bool.not_eq_true _ |>.mp h3, ?_⟩
                have hs' : s' = (transferFinish
                    (addMvt (addMvt s (transferDebitMvt f me a today))
                      (transferCreditMvt f t tm a today)) f t a today).1 :=
                  (congrArg (fun x => x.1) h).symm
                rw [hs']
                unfold refExists
                rw [transferFinish_mouvements]
                have e2 : (addMvt (addMvt s (transferDebitMvt f me a today))
                    (transferCreditMvt f t tm a today)).mouvements =
                    (s.mouvements ++ [transferDebitMvt f me a today]) ++
                      [transferCreditMvt f t tm a today] := rfl
                rw [e2]
                simp [List.any_append, trRefD, transferDebitMvt]
  · intro op s r h
    have hmono := (applyOp_transOK s op).2.2.2.2
    unfold refExists at h ⊢
    rw [List.any_eq_true] at h ⊢
    obtain ⟨mv, hmv, hr⟩ := h
    exact ⟨mv, hmono mv hmv, hr⟩

/-- State whose log already holds the first transfer's debit leg of
sender `111`. -/
def c10State : LedgerState :=
  ⟨exState2.membres, [transferDebitMvt ("111") (exMember ("111") 5 ("actif")) 2 exDate]⟩

set_option maxRecDepth 8000 in
theorem claim_C10_witness :
    (∃ e, transferRun c10State ("111") ("222") 5 exDate = (c10State, some e, [])) ∧
      refExists (applyOp c10State (Op.scriptImport [c1Row] exDate)).1
        (trRefD ("111")) = true :=
  ⟨claim_C10_constant_reference.1 c10State ("111") ("222") 5 exDate
      (by with_unfolding_all decide),
   claim_C10_constant_reference.2.2 (Op.scriptImport [c1Row] exDate) c10State
      (trRefD ("111")) (by with_unfolding_all decide)⟩

/-! ## Claim C4 -/

set_option maxRecDepth 8000 in
/-- Claim C4 counterexample: with both members existing and the sender's
balance exactly equal to the amount (5), a transfer still fails when the
sender has already transferred once — the reference `TR-111-D` is
constant per sender and already present, so the INSERT violates the
UNIQUE constraint; claim C4 as stated ("for every transfer where the
sender's balance equals amount and both members exist, the transfer
succeeds") is false at this input. -/
theorem claim_C4_counterexample :
    (transferRun c10State ("111") ("222") 5 exDate).2.1 =
        some TransferError.transferFailed ∧
      (transferRun c10State ("111") ("222") 5 exDate).1.mouvements.length = 1 ∧
      ((transferRun c10State ("111") ("222") 5 exDate).1.membres ("111")).map
          Membre.balance = some 5 := by
  refine ⟨?_, ?_, ?_⟩ <;> with_unfolding_all decide

/-- Claim C4 (amended): provided the amount is positive, sender and
beneficiary are distinct existing members, the sender's balance equals
the amount, and neither transfer reference of the sender is in the log
yet (the sender's first transfer), the transfer succeeds: no error, the
sender's balance becomes 0, the beneficiary's balance grows by the
amount, and exactly the two correlated movements are appended — the
debit leg `transferDebitMvt` (reference `TR-<sender>-D`) and the credit
leg `transferCreditMvt` (reference `TR-<sender>-C`). -/
theorem claim_C4_first_transfer (s : LedgerState) (f t : String) (a : Rat)
    (today : MyDate) (mF mT : Membre)
    (hf : s.membres f = some mF) (ht : s.membres t = some mT) (hft : f ≠ t)
    (hbal : mF.balance = a) (hpos : 0 < a)
    (hD : refExists s (trRefD f) = false) (hC : refExists s (trRefC f) = false) :
    (transferRun s f t a today).2.1 = none ∧
    (transferRun s f t a today).2.2 = [⟨f, a, DC.D⟩, ⟨t, a, DC.C⟩] ∧
    ((transferRun s f t a today).1.membres f).map Membre.balance = some 0 ∧
    ((transferRun s f t a today).1.membres t).map Membre.balance =
      some (mT.balance + a) ∧
    (transferRun s f t a today).1.mouvements = s.mouvements ++
      [transferDebitMvt f mF a today, transferCreditMvt f t mT a today] := by
  have hb : balOr0 s f = a := by
    simp [balOr0, hf, hbal]
  have hnl : ¬ (balOr0 s f < a) := by
    rw [hb]
    exact lt_irrefl a
  have h3 : ¬ (refExists s (trRefD f) = true) := by
    rw [hD]
    simp
  have h4 : ¬ (refExists (addMvt s (transferDebitMvt f mF a today)) (trRefC f) = true) := by
    rw [refExists_addMvt, hC]
    simpa [transferDebitMvt] using trRefD_ne_trRefC f
  unfold transferRun
  rw [if_neg (not_le.mpr hpos), ht]
  dsimp only
  rw [if_neg hnl, hf]
  dsimp only
  rw [if_neg h3, if_neg h4]
  have hs2f : (addMvt (addMvt s (transferDebitMvt f mF a today))
      (transferCreditMvt f t mT a today)).membres f = some mF := hf
  have hF2 := updateBalanceMeta_some (-a) today f hs2f
  have hT1 : (updateBalanceMeta (addMvt (addMvt s (transferDebitMvt f mF a today))
      (transferCreditMvt f t mT a today)) f (-a) today f).1.membres t = some mT := by
    rw [hF2]
    simp only [setMembre_membres, if_neg (Ne.symm hft)]
    exact ht
  have hT2 := updateBalanceMeta_some a today f hT1
  refine ⟨rfl, ?_, ?_, ?_, ?_⟩
  · have eEv : (transferFinish (addMvt (addMvt s (transferDebitMvt f mF a today))
        (transferCreditMvt f t mT a today)) f t a today).2.2 =
        (if (updateBalanceMeta (addMvt (addMvt s (transferDebitMvt f mF a today))
            (transferCreditMvt f t mT a today)) f (-a) today f).2 then
          [⟨f, a, DC.D⟩] else []) ++
        (if (updateBalanceMeta (updateBalanceMeta (addMvt (addMvt s
            (transferDebitMvt f mF a today)) (transferCreditMvt f t mT a today)) f
              (-a) today f).1 t a today f).2 then [⟨t, a, DC.C⟩] else []) := rfl
    rw [eEv, hT2, hF2]
    simp
  · have e1 : (transferFinish (addMvt (addMvt s (transferDebitMvt f mF a today))
        (transferCreditMvt f t mT a today)) f t a today).1 =
        (updateBalanceMeta (updateBalanceMeta (addMvt (addMvt s
          (transferDebitMvt f mF a today)) (transferCreditMvt f t mT a today)) f
            (-a) today f).1 t a today f).1 := rfl
    rw [e1, hT2]
    dsimp only
    rw [setMembre_membres, if_neg hft, hF2]
    dsimp only
    rw [setMembre_membres, if_pos rfl]
    simp [hbal]
  · have e1 : (transferFinish (addMvt (addMvt s (transferDebitMvt f mF a today))
        (transferCreditMvt f t mT a today)) f t a today).1 =
        (updateBalanceMeta (updateBalanceMeta (addMvt (addMvt s
          (transferDebitMvt f mF a today)) (transferCreditMvt f t mT a today)) f
            (-a) today f).1 t a today f).1 := rfl
    rw [e1, hT2]
    dsimp only
    rw [setMembre_membres, if_pos rfl]
    simp
  · have e1 : (transferFinish (addMvt (addMvt s (transferDebitMvt f mF a today))
        (transferCreditMvt f t mT a today)) f t a today).1 =
        (updateBalanceMeta (updateBalanceMeta (addMvt (addMvt s
          (transferDebitMvt f mF a today)) (transferCreditMvt f t mT a today)) f
            (-a) today f).1 t a today f).1 := rfl
    rw [e1, updateBalanceMeta_mouvements, updateBalanceMeta_mouvements]
    simp [addMvt]

set_option maxRecDepth 8000 in
theorem claim_C4_witness :
    (transferRun exState2 ("111") ("222") 5 exDate).2.1 = none ∧
    (transferRun exState2 ("111") ("222") 5 exDate).2.2 =
      [⟨"111", 5, DC.D⟩, ⟨"222", 5, DC.C⟩] ∧
    ((transferRun exState2 ("111") ("222") 5 exDate).1.membres ("111")).map
      Membre.balance = some 0 ∧
    ((transferRun exState2 ("111") ("222") 5 exDate).1.membres ("222")).map
      Membre.balance = some ((exMember ("222") 0 ("actif")).balance + 5) ∧
    (transferRun exState2 ("111") ("222") 5 exDate).1.mouvements =
      exState2.mouvements ++
        [transferDebitMvt ("111") (exMember ("111") 5 ("actif")) 5 exDate,
         transferCreditMvt ("111") ("222") (exMember ("222") 0 ("actif")) 5 exDate] :=
  claim_C4_first_transfer exState2 ("111") ("222") 5 exDate
    (exMember ("111") 5 ("actif")) (exMember ("222") 0 ("actif"))
    (by with_unfolding_all decide) (by with_unfolding_all decide)
    (by with_unfolding_all decide) (by with_unfolding_all decide)
    (by with_unfolding_all decide) (by with_unfolding_all decide)
    (by with_unfolding_all decide)

/-! ## Claim C9 -/

/-- Claim C9 (the code contradicts the claim's intent): the admin
"edit movement" path passes an 8-value parameter tuple — with `id`
prepended — to an UPDATE whose text has 7 placeholders, so psycopg
raises `ProgrammingError` before anything reaches the server, the
commit is skipped, and the whole state — the movement row included —
is returned untouched.  The member's balance is (vacuously) never
re-derived, but the movement's date/amount/reference/debit-credit
fields are not updated either. -/
theorem claim_C9_edit_never_executes (s : LedgerState) (mid : Nat) (d : MyDate)
    (a : Rat) (dc ref lib : String) (today : MyDate) (user : String) :
    update_mouvement s mid d a dc ref lib today user =
      (s, some SqlError.programmingError) := by
  unfold update_mouvement
  rw [if_neg (by simp [update_mouvement_param_list, update_mouvement_placeholder_count])]

/-! ## Claim C7 -/

def emptyState : LedgerState := ⟨fun _ => none, []⟩

/-- A script row whose amount is the (parseable) negative literal
`-5`. -/
def c7Row : ScriptRow :=
  ⟨some ("P7"), some ("555"), some ("Fn"), some ("Ln"), some ("2026-01-15"),
   some ("-5"), some ("C"), some ("R7")⟩

set_option maxRecDepth 8000 in
/-- Claim C7 counterexample: a row whose amount is `-5` parses and is
*applied* — the movement is inserted, no row is counted failed, and the
auto-created member's balance becomes -5 — whereas the claim says a
non-positive amount is skipped with no movement and no balance change.
Neither `parse_amount` (script) nor the Flask route checks amount
positivity. -/
theorem claim_C7_counterexample :
    (process_file [c7Row] emptyState exDate).2.1.inserted_mouvements = 1 ∧
      (process_file [c7Row] emptyState exDate).2.1.failed_rows = 0 ∧
      ((process_file [c7Row] emptyState exDate).1.membres ("555")).map
        Membre.balance = some (-5) := by
  refine ⟨?_, ?_, ?_⟩ <;> with_unfolding_all decide

/-- A row whose amount does not parse fails before any SQL runs. -/
lemma scriptParseRow_none_of_amount (r : ScriptRow)
    (h : parse_amount r.amount = none) : scriptParseRow r = none := by
  unfold scriptParseRow
  split
  · rfl
  · split
    · rfl
    · rw [h]

/-- Claim C7 (amended): in the script pipeline a row is skipped as a
failed row — with no movement and no state change — when its amount
does not parse after the `,` to `.` replacement; but a parseable amount
is accepted *regardless of sign*: for any validated, non-duplicate row
on an existing member, the movement is applied with the signed amount
(`C` adds it, otherwise it is subtracted), with no positivity check. -/
theorem claim_C7_amount_validation :
    (∀ r s today, parse_amount (ScriptRow.amount r) = none →
      scriptAux today [r] s = (s, sdFailed, [])) ∧
    (∀ r p s today m, scriptParseRow r = some p →
      payment_exists s (ParsedRow.payment_id p) = false →
      s.membres (ParsedRow.phone p) = some m →
      ((scriptAux today [r] s).1.membres (ParsedRow.phone p)).map Membre.balance =
          some (if p.dc = "C" then m.balance + p.amount else m.balance - p.amount) ∧
        (scriptAux today [r] s).2.1.inserted_mouvements = 1) := by
  constructor
  · intro r s today h
    have hp := scriptParseRow_none_of_amount r h
    simp [scriptAux, hp, sdAdd, sdFailed, sdZero]
  · intro r p s today m hp hdup hm
    have hmem : member_exists s p.phone = true := by
      unfold member_exists
      rw [hm]
      rfl
    simp only [scriptAux, hp]
    rw [hdup]
    simp only [Bool.false_eq_true, if_false]
    have e1 : (scriptRowEffect s p today).1 =
        apply_balance
          (addMvt (if member_exists s p.phone then s
                   else create_member_minimal s p.phone p.firstname p.lastname today)
            (scriptMvtOf p today))
          p.phone p.amount p.dc := rfl
    have hm1 : (addMvt s (scriptMvtOf p today)).membres p.phone = some m := hm
    have e2 : apply_balance (addMvt s (scriptMvtOf p today)) p.phone p.amount p.dc =
        setMembre (addMvt s (scriptMvtOf p today)) p.phone
          { m with balance := if p.dc = "C" then m.balance + p.amount
                              else m.balance - p.amount } := by
      unfold apply_balance
      rw [hm1]
    constructor
    · simp only [scriptAux, e1, if_pos hmem, e2]
      simp
    · have e3 : (scriptRowEffect s p today).2.1.inserted_mouvements = 1 := rfl
      simp [scriptAux, sdAdd, sdZero, e3]

set_option maxRecDepth 8000 in
/-- A row with amount `"abc"` fails; the `-5` row of the counterexample
is applied on an existing member as a subtraction-free credit of -5. -/
theorem claim_C7_witness :
    scriptAux exDate
        [⟨some ("P8"), some ("555"), some ("Fn"), some ("Ln"),
          some ("2026-01-15"), some ("abc"), some ("C"), some ("R8")⟩]
        exState2 = (exState2, sdFailed, []) ∧
      ((scriptAux exDate
          [⟨some ("P9"), some ("111"), some ("Fn"), some ("Ln"),
            some ("2026-01-15"), some ("-5"), some ("C"), some ("R9")⟩]
          exState2).1.membres ("111")).map Membre.balance =
        some ((exMember ("111") 5 ("actif")).balance + (-5)) := by
  constructor
  · exact claim_C7_amount_validation.1
      ⟨some ("P8"), some ("555"), some ("Fn"), some ("Ln"), some ("2026-01-15"),
       some ("abc"), some ("C"), some ("R8")⟩ exState2 exDate
      (by with_unfolding_all decide)
  · have h := (claim_C7_amount_validation.2
      ⟨some ("P9"), some ("111"), some ("Fn"), some ("Ln"), some ("2026-01-15"),
       some ("-5"), some ("C"), some ("R9")⟩
      ⟨"P9", "111", "Fn", "Ln", ⟨2026, 1, 15⟩, -5, "C", "R9"⟩
      exState2 exDate (exMember ("111") 5 ("actif"))
      (by with_unfolding_all decide) (by with_unfolding_all decide)
      (by with_unfolding_all decide)).1
    simpa using h

/-! ## Claim C6 -/

/-- A fully valid Flask CSV row for the unknown phone `888`. -/
def c6Row : FlaskRow :=
  ⟨some ("888"), some ("Fn"), some ("Ln"), some ("2-oct.-25"), some ("10"),
   some ("C"), some ("REF6")⟩

set_option maxRecDepth 8000 in
/-- Claim C6 counterexample: the Flask import route has no
auto-provisioning at all — importing a valid row for an unknown phone
inserts the movement (`inserted = 1`) while the Member Store stays
empty (`membres "888" = none`, balance UPDATE hits no row:
`updated_balances = 0`), so the inserted movement has *no* owner and no
created-member event exists. -/
theorem claim_C6_counterexample :
    (import_mouvements [c6Row] ("admin") exDate emptyState).1.membres ("888") =
        none ∧
      (import_mouvements [c6Row] ("admin") exDate emptyState).1.mouvements.length
        = 1 ∧
      (import_mouvements [c6Row] ("admin") exDate emptyState).2.1.inserted = 1 ∧
      (import_mouvements [c6Row] ("admin") exDate emptyState).2.1.updated_balances
        = 0 := by
  refine ⟨?_, ?_, ?_, ?_⟩ <;> with_unfolding_all decide

/-- The member row the script pipeline auto-creates for a row on an
unknown phone, after the row's own movement has been applied to it:
the `create_member_minimal` defaults (role `membre`, mentor `admin`,
status `actif`, placeholder birthdate/idtype, non-usable password
marker, balance 0) with the row's amount applied. -/
def scriptAutoMember (p : ParsedRow) (today : MyDate) : Membre :=
  { phone := p.phone
    membertype := "membre"
    mentor := "admin"
    lastname := p.lastname
    firstname := p.firstname
    birthdate := "2000-01-01"
    idtype := "N/A"
    currentstatute := "actif"
    balance := if p.dc = "C" then 0 + p.amount else 0 - p.amount
    updatedate := today
    updateuser := "system_import"
    password_hash := "NO_LOGIN_CREATED" }

/-- Claim C6 (amended): the *script* pipeline auto-provisions — a
valid, non-duplicate row whose phone has no Member Store row first
creates the minimal member (defaults as in `scriptAutoMember`, balance
0), counts one created-member event, and then inserts the movement and
applies it to that member, so the inserted movement has an existing
owner.  The Flask import route does not auto-provision (see the
counterexample). -/
theorem claim_C6_script_autoprovision (r : ScriptRow) (p : ParsedRow)
    (s : LedgerState) (today : MyDate) (hp : scriptParseRow r = some p)
    (hdup : payment_exists s (ParsedRow.payment_id p) = false)
    (habs : s.membres (ParsedRow.phone p) = none) :
    (scriptAux today [r] s).1.membres (ParsedRow.phone p) =
        some (scriptAutoMember p today) ∧
      (scriptAux today [r] s).2.1.created_members = 1 ∧
      (scriptAux today [r] s).1.mouvements = s.mouvements ++ [scriptMvtOf p today] := by
  have hmem : member_exists s p.phone = false := by
    unfold member_exists
    rw [habs]
    rfl
  have hnmem : ¬ (member_exists s p.phone = true) := by
    rw [hmem]
    simp
  have ecr : create_member_minimal s p.phone p.firstname p.lastname today =
      setMembre s p.phone
        { phone := p.phone
          membertype := "membre"
          mentor := "admin"
          lastname := p.lastname
          firstname := p.firstname
          birthdate := "2000-01-01"
          idtype := "N/A"
          currentstatute := "actif"
          balance := 0
          updatedate := today
          updateuser := "system_import"
          password_hash := "NO_LOGIN_CREATED" } := by
    unfold create_member_minimal
    rw [habs]
  have e1 : (scriptRowEffect s p today).1 =
      apply_balance
        (addMvt (if member_exists s p.phone then s
                 else create_member_minimal s p.phone p.firstname p.lastname today)
          (scriptMvtOf p today))
        p.phone p.amount p.dc := rfl
  have hm1 : (addMvt (create_member_minimal s p.phone p.firstname p.lastname today)
      (scriptMvtOf p today)).membres p.phone =
      some { phone := p.phone
             membertype := "membre"
             mentor := "admin"
             lastname := p.lastname
             firstname := p.firstname
             birthdate := "2000-01-01"
             idtype := "N/A"
             currentstatute := "actif"
             balance := 0
             updatedate := today
             updateuser := "system_import"
             password_hash := "NO_LOGIN_CREATED" } := by
    rw [addMvt_membres, ecr]
    simp
  refine ⟨?_, ?_, ?_⟩
  · simp only [scriptAux, hp]
    rw [hdup]
    simp only [Bool.false_eq_true, if_false]
    simp only [scriptAux, e1, if_neg hnmem]
    have e2 := (show apply_balance
        (addMvt (create_member_minimal s p.phone p.firstname p.lastname today)
          (scriptMvtOf p today)) p.phone p.amount p.dc =
        setMembre (addMvt (create_member_minimal s p.phone p.firstname p.lastname
          today) (scriptMvtOf p today)) p.phone (scriptAutoMember p today) from by
      unfold apply_balance
      rw [hm1]
      rfl)
    rw [e2]
    simp
  · simp only [scriptAux, hp]
    rw [hdup]
    simp only [Bool.false_eq_true, if_false]
    have e3 : (scriptRowEffect s p today).2.1.created_members =
        (if (! member_exists s p.phone) = true then 1 else 0) := rfl
    simp [scriptAux, sdAdd, sdZero, e3, hmem]
  · simp only [scriptAux, hp]
    rw [hdup]
    simp only [Bool.false_eq_true, if_false]
    simp only [scriptAux, e1, if_neg hnmem]
    have e4 : (apply_balance
        (addMvt (create_member_minimal s p.phone p.firstname p.lastname today)
          (scriptMvtOf p today)) p.phone p.amount p.dc).mouvements =
        (addMvt (create_member_minimal s p.phone p.firstname p.lastname today)
          (scriptMvtOf p today)).mouvements := by
      unfold apply_balance
      rw [hm1]
      rfl
    rw [e4, addMvt_mouvements, ecr]
    rfl

set_option maxRecDepth 8000 in
theorem claim_C6_witness :
    (scriptAux exDate [c1Row] emptyState).1.membres ("111") =
        some (scriptAutoMember ⟨"P1", "111", "Fn", "Ln", ⟨2026, 1, 15⟩, 10, "C", "R1"⟩
          exDate) ∧
      (scriptAux exDate [c1Row] emptyState).2.1.created_members = 1 ∧
      (scriptAux exDate [c1Row] emptyState).1.mouvements =
        emptyState.mouvements ++
          [scriptMvtOf ⟨"P1", "111", "Fn", "Ln", ⟨2026, 1, 15⟩, 10, "C", "R1"⟩ exDate] :=
  claim_C6_script_autoprovision c1Row
    ⟨"P1", "111", "Fn", "Ln", ⟨2026, 1, 15⟩, 10, "C", "R1"⟩ emptyState exDate
    (by with_unfolding_all decide) (by with_unfolding_all decide)
    (by with_unfolding_all decide)

/-! ## Claim C3 -/

lemma apply_balance_mouvements (s : LedgerState) (ph : String) (a : Rat)
    (dc : String) : (apply_balance s ph a dc).mouvements = s.mouvements := by
  cases hm : s.membres ph with
  | none =>
    unfold apply_balance
    rw [hm]
  | some m =>
    unfold apply_balance
    rw [hm]
    rfl

lemma create_member_minimal_mouvements (s : LedgerState) (ph fn ln : String)
    (today : MyDate) :
    (create_member_minimal s ph fn ln today).mouvements = s.mouvements := by
  cases hm : s.membres ph with
  | some m =>
    rw [create_member_minimal_present fn ln today hm]
  | none =>
    unfold create_member_minimal
    rw [hm]
    rfl

lemma payment_exists_mono {s s' : LedgerState}
    (h : ∀ mv ∈ s.mouvements, mv ∈ s'.mouvements) {pid : String}
    (hp : payment_exists s pid = true) : payment_exists s' pid = true := by
  unfold payment_exists at hp ⊢
  rw [List.any_eq_true] at hp ⊢
  obtain ⟨mv, hmv, hpd⟩ := hp
  exact ⟨mv, h mv hmv, hpd⟩

/-- After a validated new row is applied, its `payment_id` is in the
log. -/
lemma scriptRowEffect_pid (s : LedgerState) (p : ParsedRow) (today : MyDate) :
    payment_exists (scriptRowEffect s p today).1 (ParsedRow.payment_id p) = true := by
  have e1 : (scriptRowEffect s p today).1 =
      apply_balance
        (addMvt (if member_exists s p.phone then s
                 else create_member_minimal s p.phone p.firstname p.lastname today)
          (scriptMvtOf p today))
        p.phone p.amount p.dc := rfl
  unfold payment_exists
  rw [e1, apply_balance_mouvements, addMvt_mouvements, List.any_append]
  simp [scriptMvtOf]

/-- After a full script batch, every valid row of the batch has its
`payment_id` in the log: it was either already there (duplicate skip)
or inserted by the batch, and the log only grows. -/
lemma scriptAux_pids (today : MyDate) (rows : List ScriptRow) :
    ∀ s r p, r ∈ rows → scriptParseRow r = some p →
      payment_exists (scriptAux today rows s).1 (ParsedRow.payment_id p) = true := by
  induction rows with
  | nil =>
    intro s r p hr _
    exact absurd hr (List.not_mem_nil r)
  | cons r0 rs ih =>
    intro s r p hr hp
    rcases List.mem_cons.mp hr with heq | hmem
    · subst heq
      simp only [scriptAux, hp]
      by_cases hdup : payment_exists s p.payment_id = true
      · rw [if_pos hdup]
        exact payment_exists_mono ((scriptAux_transOK today rs s).2.2.2.2) hdup
      · rw [if_neg hdup]
        exact payment_exists_mono
          ((scriptAux_transOK today rs (scriptRowEffect s p today).1).2.2.2.2)
          (scriptRowEffect_pid s p today)
    · cases hp0 : scriptParseRow r0 with
      | none =>
        simp only [scriptAux, hp0]
        exact ih s r p hmem hp
      | some p0 =>
        by_cases hdup0 : payment_exists s p0.payment_id = true
        · simp only [scriptAux, hp0, if_pos hdup0]
          exact ih s r p hmem hp
        · simp only [scriptAux, hp0, if_neg hdup0]
          exact ih (scriptRowEffect s p0 today).1 r p hmem hp

/-- A script batch every valid row of which is already in the log is a
no-op: the state is returned unchanged, nothing is inserted or created,
no movement is applied, and every row is counted as a duplicate or (if
invalid) a failure. -/
lemma scriptAux_all_dup (today : MyDate) (rows : List ScriptRow) :
    ∀ s, (∀ r p, r ∈ rows → scriptParseRow r = some p →
        payment_exists s (ParsedRow.payment_id p) = true) →
      (scriptAux today rows s).1 = s ∧
      (scriptAux today rows s).2.1.inserted_mouvements = 0 ∧
      (scriptAux today rows s).2.1.created_members = 0 ∧
      (scriptAux today rows s).2.2 = [] ∧
      ((∀ r ∈ rows, (scriptParseRow r).isSome = true) →
        (scriptAux today rows s).2.1.skipped_duplicates = rows.length) := by
  induction rows with
  | nil =>
    intro s _
    exact ⟨rfl, rfl, rfl, rfl, fun _ => rfl⟩
  | cons r rs ih =>
    intro s h
    have hrest := ih s (fun r' p' hr' hp' => h r' p' (List.mem_cons_of_mem r hr') hp')
    cases hp : scriptParseRow r with
    | none =>
      simp only [scriptAux, hp]
      refine ⟨hrest.1, ?_, ?_, hrest.2.2.2.1, ?_⟩
      · simp [sdAdd, sdFailed, hrest.2.1]
      · simp [sdAdd, sdFailed, hrest.2.2.1]
      · intro hv
        have := hv r (List.mem_cons_self r rs)
        rw [hp] at this
        simp at this
    | some p =>
      have hdup : payment_exists s p.payment_id = true :=
        h r p (List.mem_cons_self r rs) hp
      simp only [scriptAux, hp, if_pos hdup]
      refine ⟨hrest.1, ?_, ?_, hrest.2.2.2.1, ?_⟩
      · simp [sdAdd, sdDup, hrest.2.1]
      · simp [sdAdd, sdDup, hrest.2.2.1]
      · intro hv
        have htail : ∀ r' ∈ rs, (scriptParseRow r').isSome = true :=
          fun r' hr' => hv r' (List.mem_cons_of_mem r hr')
        have := hrest.2.2.2.2 htail
        simp [sdAdd, sdDup, this, Nat.add_comm]

/-- A valid row followed by a row whose amount (`"abc"`) does not
parse. -/
def c3Rows : List ScriptRow :=
  [c1Row,
   ⟨some ("PB"), some ("555"), some ("Fn"), some ("Ln"), some ("2026-01-15"),
    some ("abc"), some ("C"), some ("RB")⟩]

set_option maxRecDepth 8000 in
/-- Claim C3 counterexample: re-importing a file that contains an
invalid row does *not* report `skipped == total_rows`: the invalid row
fails again (it was never inserted, so it is not a duplicate), giving
`skipped_duplicates = 1` against `total_rows = 2` on the second run. -/
theorem claim_C3_counterexample :
    (process_file c3Rows (process_file c3Rows emptyState exDate).1 exDate).2.1.skipped_duplicates
        = 1 ∧
      (process_file c3Rows (process_file c3Rows emptyState exDate).1 exDate).2.1.total_rows
        = 2 ∧
      (process_file c3Rows (process_file c3Rows emptyState exDate).1 exDate).2.1.failed_rows
        = 1 := by
  refine ⟨?_, ?_, ?_⟩ <;> with_unfolding_all decide

/-- Claim C3 (amended): re-importing any file through the script
pipeline is a no-op on the database — the second run returns the state
of the first run unchanged (so every member's balance is unchanged),
inserts no movement, creates no member and applies no balance update;
every row the first run inserted is skipped as a duplicate via its
`payment_id`, and when every row of the file is valid the second run
reports `inserted == 0` and `skipped_duplicates == total_rows`.  (Rows
that fail validation are counted in `failed_rows` both times, so for
files with invalid rows `skipped_duplicates < total_rows`.) -/
theorem claim_C3_reimport_noop (rows : List ScriptRow) (s0 : LedgerState)
    (t1 t2 : MyDate) :
    (process_file rows (process_file rows s0 t1).1 t2).1 =
        (process_file rows s0 t1).1 ∧
      (process_file rows (process_file rows s0 t1).1 t2).2.1.inserted_mouvements = 0 ∧
      (process_file rows (process_file rows s0 t1).1 t2).2.1.created_members = 0 ∧
      (process_file rows (process_file rows s0 t1).1 t2).2.2 = [] ∧
      ((∀ r ∈ rows, (scriptParseRow r).isSome = true) →
        (process_file rows (process_file rows s0 t1).1 t2).2.1.skipped_duplicates =
          (process_file rows (process_file rows s0 t1).1 t2).2.1.total_rows) := by
  have hpids : ∀ r p, r ∈ rows → scriptParseRow r = some p →
      payment_exists (process_file rows s0 t1).1 (ParsedRow.payment_id p) = true :=
    fun r p hr hp => scriptAux_pids t1 rows s0 r p hr hp
  have h := scriptAux_all_dup t2 rows (process_file rows s0 t1).1 hpids
  exact ⟨h.1, h.2.1, h.2.2.1, h.2.2.2.1, fun hv => h.2.2.2.2 hv⟩

set_option maxRecDepth 8000 in
theorem claim_C3_witness :
    (process_file [c1Row] (process_file [c1Row] emptyState exDate).1 exDate).1 =
        (process_file [c1Row] emptyState exDate).1 ∧
      (process_file [c1Row] (process_file [c1Row] emptyState exDate).1
          exDate).2.1.inserted_mouvements = 0 ∧
      (process_file [c1Row] (process_file [c1Row] emptyState exDate).1
          exDate).2.1.skipped_duplicates =
        (process_file [c1Row] (process_file [c1Row] emptyState exDate).1
          exDate).2.1.total_rows :=
  ⟨(claim_C3_reimport_noop [c1Row] emptyState exDate exDate).1,
   (claim_C3_reimport_noop [c1Row] emptyState exDate exDate).2.1,
   (claim_C3_reimport_noop [c1Row] emptyState exDate exDate).2.2.2.2
     (by with_unfolding_all decide)⟩

/-! ## Claim C8 -/

lemma sdAdd_left_comm (a b c : SDelta) : sdAdd a (sdAdd b c) = sdAdd b (sdAdd a c) := by
  simp only [sdAdd, SDelta.mk.injEq]
  refine ⟨?_, ?_, ?_, ?_, ?_⟩ <;> omega

/-- Removing one invalid row from a script batch changes nothing except
one `failed_rows` count: the final state and the applied movements are
identical, and the remaining statistics are those of the batch without
the bad row plus one failure. -/
lemma scriptAux_drop_bad (today : MyDate) (bad : ScriptRow)
    (hbad : scriptParseRow bad = none) (rs2 : List ScriptRow) :
    ∀ rs1 s, scriptAux today (rs1 ++ bad :: rs2) s =
      ((scriptAux today (rs1 ++ rs2) s).1,
       sdAdd sdFailed (scriptAux today (rs1 ++ rs2) s).2.1,
       (scriptAux today (rs1 ++ rs2) s).2.2) := by
  intro rs1
  induction rs1 with
  | nil =>
    intro s
    simp only [List.nil_append, scriptAux, hbad]
  | cons r rs1' ih =>
    intro s
    rw [List.cons_append, List.cons_append]
    cases hp : scriptParseRow r with
    | none =>
      simp only [scriptAux, hp]
      rw [ih s]
    | some p =>
      by_cases hdup : payment_exists s p.payment_id = true
      · simp only [scriptAux, hp, if_pos hdup]
        rw [ih s]
        simp only [Prod.mk.injEq]
        exact ⟨trivial, sdAdd_left_comm _ _ _, trivial⟩
      · simp only [scriptAux, hp, if_neg hdup]
        rw [ih (scriptRowEffect s p today).1]
        simp only [Prod.mk.injEq]
        exact ⟨trivial, sdAdd_left_comm _ _ _, trivial⟩

/-- Claim C8 (amended): in the *script* pipeline a per-row failure is
recovered locally — an invalid row anywhere in the batch leaves the
final state and the applied movements exactly as if the row were
absent, only adding one `failed_rows` count — and the batch always
completes, returning aggregate statistics covering every row
(`total_rows = rows.length`).  The Flask route lacks this guarantee:
a row that fails *inside the database* (duplicate reference) aborts the
shared transaction, and the commit then discards the effects of good
rows processed earlier (see the counterexample); only rows failing
Python-side validation are harmless there. -/
theorem claim_C8_per_row_recovery :
    (∀ today bad rs1 rs2 s, scriptParseRow bad = none →
      scriptAux today (rs1 ++ bad :: rs2) s =
        ((scriptAux today (rs1 ++ rs2) s).1,
         sdAdd sdFailed (scriptAux today (rs1 ++ rs2) s).2.1,
         (scriptAux today (rs1 ++ rs2) s).2.2)) ∧
    (∀ rows s today, (process_file rows s today).2.1.total_rows = rows.length) := by
  constructor
  · intro today bad rs1 rs2 s hbad
    exact scriptAux_drop_bad today bad hbad rs2 rs1 s
  · intro rows s today
    rfl

/-- A pre-existing movement carrying the reference the duplicate row
will collide with. -/
def c8OldMvt : Mvt :=
  { payment_id := none
    phone := "999"
    firstname := "F9"
    lastname := "L9"
    mvt_date := exDate
    amount := 1
    debitcredit := "C"
    reference := "RDUP"
    updatedate := exDate
    libelle := none
    updated_by := none }

def c8State : LedgerState := ⟨exState2.membres, [c8OldMvt]⟩

/-- A valid, fresh Flask row crediting member `111`. -/
def c8Good : FlaskRow :=
  ⟨some ("111"), some ("Fn"), some ("Ln"), some ("2-oct.-25"), some ("10"),
   some ("C"), some ("RNEW")⟩

/-- A valid Flask row whose reference `RDUP` already exists. -/
def c8Dup : FlaskRow :=
  ⟨some ("111"), some ("Fn"), some ("Ln"), some ("2-oct.-25"), some ("10"),
   some ("C"), some ("RDUP")⟩

set_option maxRecDepth 8000 in
/-- Claim C8 counterexample: in the Flask route a good row's effects
*are* rolled back by a later bad row.  The batch `[good, duplicate]`
counts the good row as inserted (`inserted = 1`), yet the duplicate's
INSERT aborts the shared transaction, the commit discards everything,
and the final state equals the initial one — the good row's movement is
gone and the member's balance is unchanged. -/
theorem claim_C8_counterexample :
    (import_mouvements [c8Good, c8Dup] ("admin") exDate c8State).2.1.inserted = 1 ∧
      (import_mouvements [c8Good, c8Dup] ("admin") exDate c8State).1.mouvements =
        c8State.mouvements ∧
      ((import_mouvements [c8Good, c8Dup] ("admin") exDate c8State).1.membres
          ("111")).map Membre.balance = some 5 := by
  refine ⟨?_, ?_, ?_⟩ <;> with_unfolding_all decide

set_option maxRecDepth 8000 in
theorem claim_C8_witness :
    scriptAux exDate
        ([c1Row] ++
          ⟨some ("PB"), some ("555"), some ("Fn"), some ("Ln"),
            some ("2026-01-15"), some ("abc"), some ("C"), some ("RB")⟩ :: []) emptyState =
      ((scriptAux exDate ([c1Row] ++ []) emptyState).1,
       sdAdd sdFailed (scriptAux exDate ([c1Row] ++ []) emptyState).2.1,
       (scriptAux exDate ([c1Row] ++ []) emptyState).2.2) :=
  claim_C8_per_row_recovery.1 exDate
    ⟨some ("PB"), some ("555"), some ("Fn"), some ("Ln"), some ("2026-01-15"),
     some ("abc"), some ("C"), some ("RB")⟩
    [c1Row] [] emptyState (by with_unfolding_all decide)

end KM
